import Mathlib

/-!
Shallow embedding of the stake-pool client library (src/js/dist/index.d.ts).

Modelling conventions:
* A Solana public key is modelled as the natural number given by the
  big-endian reading of its 32 bytes; base58 constants from the source are
  translated to their numeric values.
* JavaScript BN (big-number) values hold unsigned 64-bit quantities and are
  modelled as naturals (or integers where the code subtracts).
* JavaScript floating-point numbers are idealised as exact rationals; the
  distinguished value NaN is modelled explicitly by an Option wrapper.
* Asynchronous network access is modelled by a Connection record of pure
  oracle functions; a call that would reject its promise returns
  Except.error carrying the (non-interpolated part of the) message string.
* The SHA-256 based program-derived-address search is modelled as an
  injective deterministic function of the seed byte-strings and the target
  program id (a collision-free idealisation of the collision-resistant
  hash; the bump nonce is dropped because the client only uses the
  address component).
-/

set_option maxRecDepth 2000

set_option maxHeartbeats 1000000

deriving instance DecidableEq for Except

namespace StakePoolClient

/-- Public keys as big-endian numeric values of their 32 bytes. -/
abbrev Pubkey := Nat

/-- Public key that identifies the SPL Stake Pool program
(base58 SPoo1Ku8WFXoNDMHPsrGSTSG1Y47rzgn41SLUNakuHy). -/
def STAKE_POOL_PROGRAM_ID : Pubkey :=
  2942344435954256359541909205404937153575186731056757310052400512682625603152

/-- The address hard-coded inside getStakePoolAccount
(base58 9jpeBtbarFDfihjb9Nu1cxzRTGcsTUE4P8kf8NFzgYbG). -/
def hardcodedFetchAddress : Pubkey :=
  58726034159446142601606330273545520774017553948761713793198735139069556842311

/-- StakeProgram.programId (base58 Stake11111111111111111111111111111111111111). -/
def stakeProgramId : Pubkey :=
  2999830881511641543315636960581363899061052244619701952529276772483092971520

/-- SystemProgram.programId (base58 11111111111111111111111111111111). -/
def systemProgramId : Pubkey := 0

/-- TOKEN_PROGRAM_ID (base58 TokenkegQfeZyiNwAJbNbGKPFXCWuBvf9Ss623VQ5DA). -/
def TOKEN_PROGRAM_ID : Pubkey :=
  3106054211088883198575105191760876350940303353676611666299516346430146937001

/-- ASSOCIATED_TOKEN_PROGRAM_ID (base58 ATokenGPvbdGVxr1b2hvZbsiqW5xWH25efTNsLJA8knL). -/
def ASSOCIATED_TOKEN_PROGRAM_ID : Pubkey :=
  63590851936555425018482094543133168213809614203979002813017495418995103889497

/-- SYSVAR_CLOCK_PUBKEY. -/
def SYSVAR_CLOCK_PUBKEY : Pubkey :=
  3010411245977774767103551433779408434046391008353408711474217313814305570816

/-- SYSVAR_RENT_PUBKEY. -/
def SYSVAR_RENT_PUBKEY : Pubkey :=
  3010411246019284437244212147455409835011261068170932596721577831542904848384

/-- SYSVAR_STAKE_HISTORY_PUBKEY. -/
def SYSVAR_STAKE_HISTORY_PUBKEY : Pubkey :=
  3010411246023051902640053541412638131892130328438861384560211382976271876096

/-- STAKE_CONFIG_ID. -/
def STAKE_CONFIG_ID : Pubkey :=
  2999830883595957297425391470815370877654746576576239794379788187849801596928

/-- METADATA_PROGRAM_ID (base58 metaqbxxUerdq28cj1RbAWkYQm3ybzjb6a8bt518x1s). -/
def METADATA_PROGRAM_ID : Pubkey :=
  5174030077954762766333876384358785143419896121246119714368009399963057924422

/-- LAMPORTS_PER_SOL. -/
def LAMPORTS_PER_SOL : Nat := 1000000000

/-- MINIMUM_ACTIVE_STAKE = LAMPORTS_PER_SOL (source constant). -/
def MINIMUM_ACTIVE_STAKE : Nat := LAMPORTS_PER_SOL

/-- StakeProgram.space - byte size of a stake account (web3.js constant). -/
def stakeProgramSpace : Nat := 200

/-! ### Byte-string helpers -/

/-- Little-endian byte encoding of a natural in a fixed width
(BN.toArrayLike with le ordering). -/
def leBytes : Nat → Nat → List Nat
  | 0, _ => []
  | w + 1, n => n % 256 :: leBytes w (n / 256)

/-- Big-endian 32-byte buffer of a public key (PublicKey.toBuffer). -/
def pubkeyToBuffer (p : Pubkey) : List Nat :=
  (leBytes 32 p).reverse

/-- Numeric value of a little-endian byte list. -/
def leNat (bs : List Nat) : Nat :=
  bs.foldr (fun b acc => b + 256 * acc) 0

/-- Numeric value of a big-endian byte list. -/
def beNat (bs : List Nat) : Nat :=
  bs.foldl (fun acc b => acc * 256 + b) 0

/-! ### Program-derived addresses (Address Deriver) -/

/-- Injective numeric code of one seed byte-string. -/
def encodeSeed (s : List Nat) : Nat :=
  s.foldl (fun a b => a * 257 + (b + 1)) 0

/-- Model of PublicKey.findProgramAddress: a deterministic injective
function of the seed list and the program id (the address component only;
the source destructures away the bump nonce). -/
def findProgramAddress (seeds : List (List Nat)) (programId : Pubkey) : Pubkey :=
  Nat.pair (seeds.foldl (fun a s => Nat.pair a (encodeSeed s)) 0) programId

/-- Seed bytes of the string "withdraw". -/
def withdrawSeedBytes : List Nat := [119, 105, 116, 104, 100, 114, 97, 119]

/-- TRANSIENT_STAKE_SEED_PREFIX - bytes of the string "transient". -/
def transientSeedBytes : List Nat := [116, 114, 97, 110, 115, 105, 101, 110, 116]

/-- EPHEMERAL_STAKE_SEED_PREFIX - bytes of the string "ephemeral". -/
def ephemeralSeedBytes : List Nat := [101, 112, 104, 101, 109, 101, 114, 97, 108]

/-- findWithdrawAuthorityProgramAddress. -/
def findWithdrawAuthorityProgramAddress (programId stakePoolAddress : Pubkey) : Pubkey :=
  findProgramAddress [pubkeyToBuffer stakePoolAddress, withdrawSeedBytes] programId

/-- findStakeProgramAddress; the optional numeric seed becomes a 4-byte
little-endian buffer, absence becomes the empty buffer. -/
def findStakeProgramAddress (programId voteAccountAddress stakePoolAddress : Pubkey)
    (seed : Option Nat := none) : Pubkey :=
  findProgramAddress
    [pubkeyToBuffer voteAccountAddress, pubkeyToBuffer stakePoolAddress,
      match seed with
      | some s => leBytes 4 s
      | none => []]
    programId

/-- findTransientStakeProgramAddress (seed is an 8-byte little-endian buffer). -/
def findTransientStakeProgramAddress (programId voteAccountAddress stakePoolAddress : Pubkey)
    (seed : Nat) : Pubkey :=
  findProgramAddress
    [transientSeedBytes, pubkeyToBuffer voteAccountAddress,
      pubkeyToBuffer stakePoolAddress, leBytes 8 seed]
    programId

/-- findEphemeralStakeProgramAddress. -/
def findEphemeralStakeProgramAddress (programId stakePoolAddress : Pubkey)
    (seed : Nat) : Pubkey :=
  findProgramAddress
    [ephemeralSeedBytes, pubkeyToBuffer stakePoolAddress, leBytes 8 seed]
    programId

/-- Bytes of the string "metadata". -/
def metadataSeedBytes : List Nat := [109, 101, 116, 97, 100, 97, 116, 97]

/-- findMetadataAddress (derives against the token-metadata program). -/
def findMetadataAddress (stakePoolMintAddress : Pubkey) : Pubkey :=
  findProgramAddress
    [metadataSeedBytes, pubkeyToBuffer METADATA_PROGRAM_ID,
      pubkeyToBuffer stakePoolMintAddress]
    METADATA_PROGRAM_ID

/-- Model of getAssociatedTokenAddressSync from the spl-token library
(an external collaborator; shape of the real derivation). -/
def getAssociatedTokenAddressSync (mint owner : Pubkey) : Pubkey :=
  findProgramAddress
    [pubkeyToBuffer owner, pubkeyToBuffer TOKEN_PROGRAM_ID, pubkeyToBuffer mint]
    ASSOCIATED_TOKEN_PROGRAM_ID

/-! ### Layout codec (buffer-layout decoding over byte lists)

BufferLayout.decode reads fields sequentially and throws a RangeError when
the buffer is shorter than a field's span; that is modelled by an
Option-valued parser over the remaining byte list. -/

/-- A layout parser: consumes a prefix of the byte list or fails. -/
def Parser (α : Type) := List Nat → Option (α × List Nat)

instance : Monad Parser where
  pure a := fun l => some (a, l)
  bind p f := fun l =>
    match p l with
    | none => none
    | some (a, rest) => f a rest

/-- Read one byte (u8). -/
def pByte : Parser Nat := fun l =>
  match l with
  | [] => none
  | b :: rest => some (b, rest)

/-- Read a fixed number of raw bytes (blob). -/
def pBytes : Nat → Parser (List Nat)
  | 0 => pure []
  | n + 1 => do
    let b ← pByte
    let bs ← pBytes n
    pure (b :: bs)

/-- Read a fixed-width little-endian unsigned integer. -/
def pUIntLE (width : Nat) : Parser Nat := do
  let bs ← pBytes width
  pure (leNat bs)

/-- u32 field. -/
def pU32 : Parser Nat := pUIntLE 4

/-- u64 / ns64 field. -/
def pU64 : Parser Nat := pUIntLE 8

/-- publicKey field (32 bytes, big-endian numeric value). -/
def pPubkey : Parser Pubkey := do
  let bs ← pBytes 32
  pure (beNat bs)

/-- A fee structure: feeFields = [u64 denominator, u64 numerator]. -/
structure Fee where
  denominator : Nat
  numerator : Nat
  deriving DecidableEq, Repr

/-- Parse a fee struct (denominator first, as in the source). -/
def pFee : Parser Fee := do
  let d ← pU64
  let n ← pU64
  pure ⟨d, n⟩

/-- Option layout: presence byte then payload when the byte is nonzero. -/
def pOption (p : Parser α) : Parser (Option α) := do
  let tag ← pByte
  if tag = 0 then pure none else do
    let a ← p
    pure (some a)

/-- Parse exactly n repetitions. -/
def pCount (p : Parser α) : Nat → Parser (List α)
  | 0 => pure []
  | n + 1 => do
    let x ← p
    let xs ← pCount p n
    pure (x :: xs)

/-- Vec layout: u32 length prefix then that many elements. -/
def pVec (p : Parser α) : Parser (List α) := do
  let n ← pU32
  pCount p n

/-- Lockup sub-struct of the stake pool layout. -/
structure Lockup where
  unixTimestamp : Nat
  epoch : Nat
  custodian : Pubkey
  deriving DecidableEq, Repr

/-- Decoded StakePool account state (field order follows StakePoolLayout). -/
structure StakePool where
  accountType : Nat
  manager : Pubkey
  staker : Pubkey
  stakeDepositAuthority : Pubkey
  stakeWithdrawBumpSeed : Nat
  validatorList : Pubkey
  reserveStake : Pubkey
  poolMint : Pubkey
  managerFeeAccount : Pubkey
  tokenProgramId : Pubkey
  totalLamports : Nat
  poolTokenSupply : Nat
  lastUpdateEpoch : Nat
  lockup : Lockup
  epochFee : Fee
  nextEpochFee : Option Fee
  preferredDepositValidatorVoteAddress : Option Pubkey
  preferredWithdrawValidatorVoteAddress : Option Pubkey
  stakeDepositFee : Fee
  stakeWithdrawalFee : Fee
  nextStakeWithdrawalFee : Option Fee
  stakeReferralFee : Nat
  solDepositAuthority : Option Pubkey
  solDepositFee : Fee
  solReferralFee : Nat
  solWithdrawAuthority : Option Pubkey
  solWithdrawalFee : Fee
  nextSolWithdrawalFee : Option Fee
  lastEpochPoolTokenSupply : Nat
  lastEpochTotalLamports : Nat
  deriving DecidableEq, Repr

/-- Parser for StakePoolLayout, field by field in source order. -/
def pStakePool : Parser StakePool := do
  let accountType ← pByte
  let manager ← pPubkey
  let staker ← pPubkey
  let stakeDepositAuthority ← pPubkey
  let stakeWithdrawBumpSeed ← pByte
  let validatorList ← pPubkey
  let reserveStake ← pPubkey
  let poolMint ← pPubkey
  let managerFeeAccount ← pPubkey
  let tokenProgramId ← pPubkey
  let totalLamports ← pU64
  let poolTokenSupply ← pU64
  let lastUpdateEpoch ← pU64
  let lockupTs ← pU64
  let lockupEpoch ← pU64
  let lockupCustodian ← pPubkey
  let epochFee ← pFee
  let nextEpochFee ← pOption pFee
  let preferredDeposit ← pOption pPubkey
  let preferredWithdraw ← pOption pPubkey
  let stakeDepositFee ← pFee
  let stakeWithdrawalFee ← pFee
  let nextStakeWithdrawalFee ← pOption pFee
  let stakeReferralFee ← pByte
  let solDepositAuthority ← pOption pPubkey
  let solDepositFee ← pFee
  let solReferralFee ← pByte
  let solWithdrawAuthority ← pOption pPubkey
  let solWithdrawalFee ← pFee
  let nextSolWithdrawalFee ← pOption pFee
  let lastEpochPoolTokenSupply ← pU64
  let lastEpochTotalLamports ← pU64
  pure
    { accountType, manager, staker, stakeDepositAuthority, stakeWithdrawBumpSeed,
      validatorList, reserveStake, poolMint, managerFeeAccount, tokenProgramId,
      totalLamports, poolTokenSupply, lastUpdateEpoch,
      lockup := ⟨lockupTs, lockupEpoch, lockupCustodian⟩,
      epochFee, nextEpochFee,
      preferredDepositValidatorVoteAddress := preferredDeposit,
      preferredWithdrawValidatorVoteAddress := preferredWithdraw,
      stakeDepositFee, stakeWithdrawalFee, nextStakeWithdrawalFee,
      stakeReferralFee, solDepositAuthority, solDepositFee, solReferralFee,
      solWithdrawAuthority, solWithdrawalFee, nextSolWithdrawalFee,
      lastEpochPoolTokenSupply, lastEpochTotalLamports }

/-- StakePoolLayout.decode as a total function (RangeError becomes none). -/
def StakePoolLayout.decode (data : List Nat) : Option StakePool :=
  (pStakePool data).map (·.1)

/-- ValidatorStakeInfoStatus.Active = 0 (status is stored as a raw byte). -/
def ValidatorStakeInfoStatus.Active : Nat := 0

/-- Decoded ValidatorStakeInfo entry (field order follows the layout). -/
structure ValidatorStakeInfo where
  activeStakeLamports : Nat
  transientStakeLamports : Nat
  lastUpdateEpoch : Nat
  transientSeedSuffixStart : Nat
  transientSeedSuffixEnd : Nat
  status : Nat
  voteAccountAddress : Pubkey
  deriving DecidableEq, Repr

/-- Parser for ValidatorStakeInfoLayout. -/
def pValidatorStakeInfo : Parser ValidatorStakeInfo := do
  let activeStakeLamports ← pU64
  let transientStakeLamports ← pU64
  let lastUpdateEpoch ← pU64
  let transientSeedSuffixStart ← pU64
  let transientSeedSuffixEnd ← pU64
  let status ← pByte
  let voteAccountAddress ← pPubkey
  pure
    { activeStakeLamports, transientStakeLamports, lastUpdateEpoch,
      transientSeedSuffixStart, transientSeedSuffixEnd, status, voteAccountAddress }

/-- Decoded ValidatorList account state. -/
structure ValidatorList where
  accountType : Nat
  maxValidators : Nat
  validators : List ValidatorStakeInfo
  deriving DecidableEq, Repr

/-- Parser for ValidatorListLayout. -/
def pValidatorList : Parser ValidatorList := do
  let accountType ← pByte
  let maxValidators ← pU32
  let validators ← pVec pValidatorStakeInfo
  pure { accountType, maxValidators, validators }

/-- ValidatorListLayout.decode as a total function. -/
def ValidatorListLayout.decode (data : List Nat) : Option ValidatorList :=
  (pValidatorList data).map (·.1)

/-! ### Numeric helpers -/

/-- A JavaScript number argument: NaN is modelled by none, every other
value is idealised as an exact rational. -/
abbrev JsNumber := Option ℚ

/-- solToLamports: NaN maps to 0, otherwise multiply by LAMPORTS_PER_SOL. -/
def solToLamports (amount : JsNumber) : ℚ :=
  match amount with
  | none => 0
  | some a => a * (LAMPORTS_PER_SOL : ℚ)

/-- divideBnToNumber: quotient by BN integer division plus the remainder
as a gcd-reduced fraction.  BN.div truncates toward zero and BN.umod
yields a non-negative remainder; every call site in the library passes
non-negative operands, for which Int.tdiv and Int.emod agree with BN.
The float addition and division are idealised as exact rational
arithmetic. -/
def divideBnToNumber (numerator denominator : ℤ) : ℚ :=
  if denominator = 0 then 0
  else (Int.tdiv numerator denominator : ℚ) +
    (numerator.emod denominator : ℚ) / (denominator : ℚ)

/-- calcPoolTokensForDeposit: pool tokens minted for a stake deposit
(Math.floor of the proportional share). -/
def calcPoolTokensForDeposit (stakePool : StakePool) (stakeLamports : ℤ) : ℤ :=
  if stakePool.poolTokenSupply = 0 ∨ stakePool.totalLamports = 0 then stakeLamports
  else
    ⌊divideBnToNumber (stakeLamports * (stakePool.poolTokenSupply : ℤ))
      (stakePool.totalLamports : ℤ)⌋

/-- calcLamportsWithdrawAmount: lamports released for burning pool tokens. -/
def calcLamportsWithdrawAmount (stakePool : StakePool) (poolTokens : ℤ) : ℚ :=
  let numerator := poolTokens * (stakePool.totalLamports : ℤ)
  let denominator := (stakePool.poolTokenSupply : ℤ)
  if numerator < denominator then 0
  else divideBnToNumber numerator denominator

/-! ### Connection model (Account Reader) -/

/-- Raw account info returned by connection.getAccountInfo. -/
structure AccountInfo where
  data : List Nat
  executable : Bool
  lamports : Nat
  owner : Pubkey
  deriving DecidableEq, Repr

/-- Stake-account type enum of the parsed stake-account representation. -/
inductive StakeAccountType
  | uninitialized
  | initialized
  | delegated
  | rewardsPool
  deriving DecidableEq, Repr

/-- Parsed stake account as used by the library: the type tag and the
info.stake.delegation.voter optional chain, compressed to the one field
the code reads. -/
structure ParsedStakeAccount where
  type : StakeAccountType
  delegationVoter : Option Pubkey
  deriving DecidableEq, Repr

/-- The remote ledger, modelled as a record of pure oracle functions
(one per RPC capability the library consumes).  getTokenAccountAmount
models the spl-token getAccount helper (an external collaborator) by
returning the token balance; getParsedStakeAccount models
getParsedAccountInfo specialised to stake accounts. -/
structure Connection where
  getAccountInfo : Pubkey → Option AccountInfo
  getProgramAccounts : Pubkey → List (Pubkey × AccountInfo)
  getMinimumBalanceForRentExemption : Nat → Nat
  getTokenAccountAmount : Pubkey → Option Nat
  getParsedStakeAccount : Pubkey → Option ParsedStakeAccount

/-- Result of getStakePoolAccount: decoded data plus the account envelope. -/
structure StakePoolAccount where
  pubkey : Pubkey
  data : StakePool
  executable : Bool
  lamports : Nat
  owner : Pubkey
  deriving DecidableEq, Repr

/-- getStakePoolAccount.  NOTE (faithful to the source): the ledger fetch
goes to the fixed address 9jpeBtbarFDfihjb9Nu1cxzRTGcsTUE4P8kf8NFzgYbG,
not to the stakePoolAddress argument; only the returned pubkey field uses
the argument.  A missing account raises the distinct not-found error; an
undecodable buffer raises the (uncaught) layout error. -/
def getStakePoolAccount (connection : Connection) (stakePoolAddress : Pubkey) :
    Except String StakePoolAccount :=
  match connection.getAccountInfo hardcodedFetchAddress with
  | none => .error "Invalid stake pool account"
  | some account =>
    match StakePoolLayout.decode account.data with
    | none => .error "RangeError"
    | some d =>
      .ok { pubkey := stakePoolAddress, data := d, executable := account.executable,
            lamports := account.lamports, owner := account.owner }

/-- Result of getValidatorListAccount. -/
structure ValidatorListAccount where
  pubkey : Pubkey
  data : ValidatorList
  executable : Bool
  lamports : Nat
  owner : Pubkey
  deriving DecidableEq, Repr

/-- getValidatorListAccount (this one does fetch at its argument). -/
def getValidatorListAccount (connection : Connection) (pubkey : Pubkey) :
    Except String ValidatorListAccount :=
  match connection.getAccountInfo pubkey with
  | none => .error "Invalid validator list account"
  | some account =>
    match ValidatorListLayout.decode account.data with
    | none => .error "RangeError"
    | some d =>
      .ok { pubkey, data := d, executable := account.executable,
            lamports := account.lamports, owner := account.owner }

/-- getStakeAccount: fetch the parsed representation of a stake account;
a missing or non-stake account is an error (the program and parsed-shape
checks are folded into the oracle returning none). -/
def getStakeAccount (connection : Connection) (stakeAccount : Pubkey) :
    Except String ParsedStakeAccount :=
  match connection.getParsedStakeAccount stakeAccount with
  | none => .error "Invalid stake account"
  | some parsed => .ok parsed

/-- Node Buffer.readUInt8 at offset 0: throws a RangeError on an empty
buffer (this throw is outside every try block in the scan below). -/
def bufferReadUInt8 (data : List Nat) : Except String Nat :=
  match data with
  | [] => .error "RangeError: attempt to access memory outside buffer bounds"
  | b :: _ => .ok b

/-- One entry of the bulk-scan result: the decoded payload is a StakePool
or a ValidatorList, or none when decoding failed for this entry. -/
structure PoolAccountEntry where
  pubkey : Pubkey
  data : Option (StakePool ⊕ ValidatorList)
  executable : Bool
  lamports : Nat
  owner : Pubkey
  deriving DecidableEq, Repr

/-- The per-entry closure of the bulk scan: read the leading tag byte
(throwing on an empty buffer), then attempt the decode selected by the
tag, turning a decode failure or an unknown tag into a per-entry none. -/
def scanAccount (pa : Pubkey × AccountInfo) : Except String PoolAccountEntry := do
  let tag ← bufferReadUInt8 pa.2.data
  let decodedData : Option (StakePool ⊕ ValidatorList) :=
    if tag = 1 then (StakePoolLayout.decode pa.2.data).map .inl
    else if tag = 2 then (ValidatorListLayout.decode pa.2.data).map .inr
    else none
  pure { pubkey := pa.1, data := decodedData, executable := pa.2.executable,
         lamports := pa.2.lamports, owner := pa.2.owner }

/-- getStakePoolAccounts: map the per-entry scan over every program
account; an exception from any entry (only the empty-buffer read) aborts
the whole batch. -/
def getStakePoolAccounts (connection : Connection) (stakePoolProgramAddress : Pubkey) :
    Except String (List PoolAccountEntry) :=
  (connection.getProgramAccounts stakePoolProgramAddress).mapM scanAccount

/-! ### Withdrawal-account selection (prepareWithdrawAccounts) -/

/-- Candidate classification used by the selection policy. -/
inductive CandidateType
  | preferred
  | active
  | transient
  | reserve
  deriving DecidableEq, Repr

/-- One candidate source account for a withdrawal (the objects pushed
into the accounts array; lamports is an integer because the transient
and reserve balances are computed by subtraction). -/
structure Candidate where
  ctype : CandidateType
  voteAddress : Option Pubkey
  stakeAddress : Pubkey
  lamports : ℤ
  deriving DecidableEq, Repr

/-- A WithdrawAccount entry of the computed plan (poolAmount is a
JavaScript number, idealised as a rational). -/
structure WithdrawAccount where
  stakeAddress : Pubkey
  voteAddress : Option Pubkey
  poolAmount : ℚ
  deriving DecidableEq, Repr

/-- The candidate-construction loop over the validator list: non-Active
validators are skipped entirely; a nonzero active balance contributes a
preferred or active candidate; a transient balance above minBalance
contributes a transient candidate with the surplus. -/
def candidatesOfValidators (stakePool : StakePool) (stakePoolAddress : Pubkey)
    (validators : List ValidatorStakeInfo) (minBalance : Nat) : List Candidate :=
  validators.flatMap fun validator =>
    if validator.status ≠ ValidatorStakeInfoStatus.Active then []
    else
      let stakeAccountAddress := findStakeProgramAddress STAKE_POOL_PROGRAM_ID
        validator.voteAccountAddress stakePoolAddress
      let activePart : List Candidate :=
        if validator.activeStakeLamports ≠ 0 then
          let isPreferred := stakePool.preferredWithdrawValidatorVoteAddress =
            some validator.voteAccountAddress
          [{ ctype := if isPreferred then .preferred else .active,
             voteAddress := some validator.voteAccountAddress,
             stakeAddress := stakeAccountAddress,
             lamports := (validator.activeStakeLamports : ℤ) }]
        else []
      let transientStakeLamports : ℤ :=
        (validator.transientStakeLamports : ℤ) - (minBalance : ℤ)
      let transientPart : List Candidate :=
        if 0 < transientStakeLamports then
          [{ ctype := .transient,
             voteAddress := some validator.voteAccountAddress,
             stakeAddress := findTransientStakeProgramAddress STAKE_POOL_PROGRAM_ID
               validator.voteAccountAddress stakePoolAddress
               validator.transientSeedSuffixStart,
             lamports := transientStakeLamports }]
        else []
      activePart ++ transientPart

/-- Stable insertion of one element for the sort model. -/
def insertLe (le : α → α → Bool) (x : α) : List α → List α
  | [] => [x]
  | y :: ys => if le x y then x :: y :: ys else y :: insertLe le x ys

/-- Stable sort modelling Array.prototype.sort (stable per ES2019): an
element goes before another when the comparator is non-positive. -/
def sortByComparator (le : α → α → Bool) : List α → List α
  | [] => []
  | x :: xs => insertLe le x (sortByComparator le xs)

/-- The comparator actually used: the caller-supplied one, or the default
descending-balance comparator (a, b) fun giving b.lamports - a.lamports. -/
def candidateLe (compareFn : Option (Candidate → Candidate → ℤ)) (a b : Candidate) : Bool :=
  match compareFn with
  | some f => decide (f a b ≤ 0)
  | none => decide (b.lamports - a.lamports ≤ 0)

/-- availableForWithdrawal for one candidate: the proportional pool-token
value, grossed up through the inverse stake-withdrawal fee unless the fee
is skipped or the inverse-fee numerator is zero.  The BN subtraction
denominator - numerator is signed, as in bn.js. -/
def availableForWithdrawal (stakePool : StakePool) (skipFee : Bool) (c : Candidate) : ℚ :=
  let fee := stakePool.stakeWithdrawalFee
  let inverseFeeNumerator : ℤ := (fee.denominator : ℤ) - (fee.numerator : ℤ)
  let base : ℤ := calcPoolTokensForDeposit stakePool c.lamports
  if ¬skipFee ∧ inverseFeeNumerator ≠ 0 then
    divideBnToNumber (base * (fee.denominator : ℤ)) inverseFeeNumerator
  else (base : ℚ)

/-- State of the greedy selection loop. -/
structure SelState where
  withdrawFrom : List WithdrawAccount
  remainingAmount : ℚ
  deriving DecidableEq, Repr

/-- One step of the greedy loop.  A zero remaining amount absorbs
(modelling the break statements); a transient candidate at or below
minBalance is skipped; a non-positive poolAmount is skipped; otherwise
the candidate is consumed by min of its capacity and the remainder. -/
def selectStep (stakePool : StakePool) (minBalance : Nat) (skipFee : Bool)
    (st : SelState) (c : Candidate) : SelState :=
  if st.remainingAmount = 0 then st
  else if c.lamports ≤ (minBalance : ℤ) ∧ c.ctype = .transient then st
  else
    let poolAmount := min (availableForWithdrawal stakePool skipFee c) st.remainingAmount
    if poolAmount ≤ 0 then st
    else
      { withdrawFrom := st.withdrawFrom ++
          [{ stakeAddress := c.stakeAddress, voteAddress := c.voteAddress, poolAmount }],
        remainingAmount := st.remainingAmount - poolAmount }

/-- The fixed tier walk: candidates are re-filtered per tier in the order
preferred, active, transient, reserve, and consumed sequentially. -/
def tieredCandidates (accounts : List Candidate) : List Candidate :=
  [CandidateType.preferred, .active, .transient, .reserve].flatMap fun t =>
    accounts.filter fun a => a.ctype = t

/-- The full sorted-plus-reserve candidate list prepareWithdrawAccounts
works from, given the decoded validator list. -/
def preparedAccounts (connection : Connection) (stakePool : StakePool)
    (stakePoolAddress : Pubkey) (validators : List ValidatorStakeInfo)
    (compareFn : Option (Candidate → Candidate → ℤ))
    (minBalanceForRentExemption minBalance : Nat) : List Candidate :=
  let sorted := sortByComparator (candidateLe compareFn)
    (candidatesOfValidators stakePool stakePoolAddress validators minBalance)
  let reserveStakeBalance : ℤ :=
    ((connection.getAccountInfo stakePool.reserveStake).elim 0 (·.lamports) : ℤ) -
      (minBalanceForRentExemption : ℤ)
  if 0 < reserveStakeBalance then
    sorted ++ [{ ctype := .reserve, voteAddress := none,
                 stakeAddress := stakePool.reserveStake,
                 lamports := reserveStakeBalance }]
  else sorted

/-- The data prepareWithdrawAccounts assembles before the greedy walk. -/
structure PrepareContext where
  validators : List ValidatorStakeInfo
  minBalanceForRentExemption : Nat
  minBalance : Nat
  accounts : List Candidate
  deriving DecidableEq, Repr

/-- The state-gathering half of prepareWithdrawAccounts: fetch and
decode the validator list, reject an empty list, compute the rent and
minimum-balance figures and build the sorted candidate list. -/
def prepareContext (connection : Connection) (stakePool : StakePool)
    (stakePoolAddress : Pubkey) (compareFn : Option (Candidate → Candidate → ℤ)) :
    Except String PrepareContext := do
  let validatorListAcc := connection.getAccountInfo stakePool.validatorList
  let validatorList ←
    match validatorListAcc with
    | none => Except.error "TypeError: cannot decode missing account data"
    | some acc =>
      match ValidatorListLayout.decode acc.data with
      | none => Except.error "RangeError"
      | some vl => Except.ok vl
  if validatorList.validators = [] then
    Except.error "No accounts found"
  else
    let minBalanceForRentExemption :=
      connection.getMinimumBalanceForRentExemption stakeProgramSpace
    let minBalance := minBalanceForRentExemption + MINIMUM_ACTIVE_STAKE
    pure
      { validators := validatorList.validators, minBalanceForRentExemption, minBalance,
        accounts := preparedAccounts connection stakePool stakePoolAddress
          validatorList.validators compareFn minBalanceForRentExemption minBalance }

/-- prepareWithdrawAccounts: gather the context, walk the tiers greedily
and fail when anything remains unsatisfied. -/
def prepareWithdrawAccounts (connection : Connection) (stakePool : StakePool)
    (stakePoolAddress : Pubkey) (amount : ℚ)
    (compareFn : Option (Candidate → Candidate → ℤ)) (skipFee : Bool) :
    Except String (List WithdrawAccount) := do
  let ctx ← prepareContext connection stakePool stakePoolAddress compareFn
  let final := (tieredCandidates ctx.accounts).foldl
    (selectStep stakePool ctx.minBalance skipFee) ⟨[], amount⟩
  if 0 < final.remainingAmount then
    Except.error "No stake accounts found in this pool with enough balance to withdraw"
  else
    pure final.withdrawFrom

/-! ### Instruction builders and decoders (Instruction Builder) -/

/-- An account meta entry of an instruction. -/
structure AccountMeta where
  pubkey : Pubkey
  isSigner : Bool
  isWritable : Bool
  deriving DecidableEq, Repr

/-- A TransactionInstruction: target program, ordered account list, and
the encoded payload bytes. -/
structure TransactionInstruction where
  programId : Pubkey
  keys : List AccountMeta
  data : List Nat
  deriving DecidableEq, Repr

/-- Token-metadata string maxima. -/
def METADATA_MAX_NAME_LENGTH : Nat := 32

/-- Maximum symbol length. -/
def METADATA_MAX_SYMBOL_LENGTH : Nat := 10

/-- Maximum uri length. -/
def METADATA_MAX_URI_LENGTH : Nat := 200

/-- The per-call metadata layout descriptor (the three lengths fix the
dynamic struct shape). -/
structure TokenMetadataLayoutType where
  index : Nat
  nameLength : Nat
  symbolLength : Nat
  uriLength : Nat
  deriving DecidableEq, Repr

/-- tokenMetadataLayout: validates the three string lengths against the
fixed maxima before returning the layout descriptor. -/
def tokenMetadataLayout (instruction nameLength symbolLength uriLength : Nat) :
    Except String TokenMetadataLayoutType :=
  if METADATA_MAX_NAME_LENGTH < nameLength then
    .error "maximum token name length is 32 characters"
  else if METADATA_MAX_SYMBOL_LENGTH < symbolLength then
    .error "maximum token symbol length is 10 characters"
  else if METADATA_MAX_URI_LENGTH < uriLength then
    .error "maximum token uri length is 200 characters"
  else
    .ok { index := instruction, nameLength, symbolLength, uriLength }

/-- encodeData for the metadata layout: instruction byte, then each
string as a u32 length prefix followed by its bytes. -/
def encodeTokenMetadataData (t : TokenMetadataLayoutType)
    (name symbol uri : List Nat) : List Nat :=
  t.index :: (leBytes 4 t.nameLength ++ name ++ leBytes 4 t.symbolLength ++ symbol ++
    leBytes 4 t.uriLength ++ uri)

/-- encodeData for the MOVE_STAKE_LAYOUT family (u8 instruction,
ns64 lamports, ns64 transientStakeSeed). -/
def encodeMoveStakeData (index lamports transientStakeSeed : Nat) : List Nat :=
  index :: (leBytes 8 lamports ++ leBytes 8 transientStakeSeed)

/-- encodeData for the additional-stake layouts (u8 instruction,
ns64 lamports, ns64 transientStakeSeed, ns64 ephemeralStakeSeed). -/
def encodeAdditionalStakeData (index lamports transientStakeSeed ephemeralStakeSeed : Nat) :
    List Nat :=
  index :: (leBytes 8 lamports ++ leBytes 8 transientStakeSeed ++
    leBytes 8 ephemeralStakeSeed)

/-- Parameters of the IncreaseValidatorStake builders. -/
structure IncreaseValidatorStakeParams where
  stakePool : Pubkey
  staker : Pubkey
  withdrawAuthority : Pubkey
  validatorList : Pubkey
  reserveStake : Pubkey
  transientStake : Pubkey
  validatorStake : Pubkey
  validatorVote : Pubkey
  lamports : Nat
  transientStakeSeed : Nat
  deriving DecidableEq, Repr

/-- StakePoolInstruction.increaseValidatorStake (layout index 4). -/
def StakePoolInstruction.increaseValidatorStake (p : IncreaseValidatorStakeParams) :
    TransactionInstruction :=
  { programId := STAKE_POOL_PROGRAM_ID,
    keys :=
      [⟨p.stakePool, false, false⟩, ⟨p.staker, true, false⟩,
       ⟨p.withdrawAuthority, false, false⟩, ⟨p.validatorList, false, true⟩,
       ⟨p.reserveStake, false, true⟩, ⟨p.transientStake, false, true⟩,
       ⟨p.validatorStake, false, false⟩, ⟨p.validatorVote, false, false⟩,
       ⟨SYSVAR_CLOCK_PUBKEY, false, false⟩, ⟨SYSVAR_RENT_PUBKEY, false, false⟩,
       ⟨SYSVAR_STAKE_HISTORY_PUBKEY, false, false⟩, ⟨STAKE_CONFIG_ID, false, false⟩,
       ⟨systemProgramId, false, false⟩, ⟨stakeProgramId, false, false⟩],
    data := encodeMoveStakeData 4 p.lamports p.transientStakeSeed }

/-- StakePoolInstruction.increaseAdditionalValidatorStake (layout index 19). -/
def StakePoolInstruction.increaseAdditionalValidatorStake
    (p : IncreaseValidatorStakeParams) (ephemeralStake : Pubkey)
    (ephemeralStakeSeed : Nat) : TransactionInstruction :=
  { programId := STAKE_POOL_PROGRAM_ID,
    keys :=
      [⟨p.stakePool, false, false⟩, ⟨p.staker, true, false⟩,
       ⟨p.withdrawAuthority, false, false⟩, ⟨p.validatorList, false, true⟩,
       ⟨p.reserveStake, false, true⟩, ⟨ephemeralStake, false, true⟩,
       ⟨p.transientStake, false, true⟩, ⟨p.validatorStake, false, false⟩,
       ⟨p.validatorVote, false, false⟩, ⟨SYSVAR_CLOCK_PUBKEY, false, false⟩,
       ⟨SYSVAR_STAKE_HISTORY_PUBKEY, false, false⟩, ⟨STAKE_CONFIG_ID, false, false⟩,
       ⟨systemProgramId, false, false⟩, ⟨stakeProgramId, false, false⟩],
    data := encodeAdditionalStakeData 19 p.lamports p.transientStakeSeed ephemeralStakeSeed }

/-- Parameters of the DecreaseValidatorStake builders. -/
structure DecreaseValidatorStakeParams where
  stakePool : Pubkey
  staker : Pubkey
  withdrawAuthority : Pubkey
  validatorList : Pubkey
  reserveStake : Pubkey
  validatorStake : Pubkey
  transientStake : Pubkey
  lamports : Nat
  transientStakeSeed : Nat
  deriving DecidableEq, Repr

/-- StakePoolInstruction.decreaseValidatorStakeWithReserve (layout index 21). -/
def StakePoolInstruction.decreaseValidatorStakeWithReserve
    (p : DecreaseValidatorStakeParams) : TransactionInstruction :=
  { programId := STAKE_POOL_PROGRAM_ID,
    keys :=
      [⟨p.stakePool, false, false⟩, ⟨p.staker, true, false⟩,
       ⟨p.withdrawAuthority, false, false⟩, ⟨p.validatorList, false, true⟩,
       ⟨p.reserveStake, false, true⟩, ⟨p.validatorStake, false, true⟩,
       ⟨p.transientStake, false, true⟩, ⟨SYSVAR_CLOCK_PUBKEY, false, false⟩,
       ⟨SYSVAR_STAKE_HISTORY_PUBKEY, false, false⟩,
       ⟨systemProgramId, false, false⟩, ⟨stakeProgramId, false, false⟩],
    data := encodeMoveStakeData 21 p.lamports p.transientStakeSeed }

/-- StakePoolInstruction.decreaseAdditionalValidatorStake (layout index 20). -/
def StakePoolInstruction.decreaseAdditionalValidatorStake
    (p : DecreaseValidatorStakeParams) (ephemeralStake : Pubkey)
    (ephemeralStakeSeed : Nat) : TransactionInstruction :=
  { programId := STAKE_POOL_PROGRAM_ID,
    keys :=
      [⟨p.stakePool, false, false⟩, ⟨p.staker, true, false⟩,
       ⟨p.withdrawAuthority, false, false⟩, ⟨p.validatorList, false, true⟩,
       ⟨p.reserveStake, false, true⟩, ⟨p.validatorStake, false, true⟩,
       ⟨ephemeralStake, false, true⟩, ⟨p.transientStake, false, true⟩,
       ⟨SYSVAR_CLOCK_PUBKEY, false, false⟩,
       ⟨SYSVAR_STAKE_HISTORY_PUBKEY, false, false⟩,
       ⟨systemProgramId, false, false⟩, ⟨stakeProgramId, false, false⟩],
    data := encodeAdditionalStakeData 20 p.lamports p.transientStakeSeed ephemeralStakeSeed }

/-- Parameters of the DepositStake builder and decoder. -/
structure DepositStakeParams where
  stakePool : Pubkey
  validatorList : Pubkey
  depositAuthority : Pubkey
  withdrawAuthority : Pubkey
  depositStake : Pubkey
  validatorStake : Pubkey
  reserveStake : Pubkey
  destinationPoolAccount : Pubkey
  managerFeeAccount : Pubkey
  referralPoolAccount : Pubkey
  poolMint : Pubkey
  deriving DecidableEq, Repr

/-- StakePoolInstruction.depositStake (layout index 9, data is the lone
instruction byte). -/
def StakePoolInstruction.depositStake (p : DepositStakeParams) : TransactionInstruction :=
  { programId := STAKE_POOL_PROGRAM_ID,
    keys :=
      [⟨p.stakePool, false, true⟩, ⟨p.validatorList, false, true⟩,
       ⟨p.depositAuthority, false, false⟩, ⟨p.withdrawAuthority, false, false⟩,
       ⟨p.depositStake, false, true⟩, ⟨p.validatorStake, false, true⟩,
       ⟨p.reserveStake, false, true⟩, ⟨p.destinationPoolAccount, false, true⟩,
       ⟨p.managerFeeAccount, false, true⟩, ⟨p.referralPoolAccount, false, true⟩,
       ⟨p.poolMint, false, true⟩, ⟨SYSVAR_CLOCK_PUBKEY, false, false⟩,
       ⟨SYSVAR_STAKE_HISTORY_PUBKEY, false, false⟩,
       ⟨TOKEN_PROGRAM_ID, false, false⟩, ⟨stakeProgramId, false, false⟩],
    data := [9] }

/-- Parameters of the DepositSol builder and decoder. -/
structure DepositSolParams where
  stakePool : Pubkey
  depositAuthority : Option Pubkey
  withdrawAuthority : Pubkey
  reserveStake : Pubkey
  fundingAccount : Pubkey
  destinationPoolAccount : Pubkey
  managerFeeAccount : Pubkey
  referralPoolAccount : Pubkey
  poolMint : Pubkey
  lamports : Nat
  deriving DecidableEq, Repr

/-- StakePoolInstruction.depositSol (layout index 14, ns64 lamports). -/
def StakePoolInstruction.depositSol (p : DepositSolParams) : TransactionInstruction :=
  { programId := STAKE_POOL_PROGRAM_ID,
    keys :=
      [⟨p.stakePool, false, true⟩, ⟨p.withdrawAuthority, false, false⟩,
       ⟨p.reserveStake, false, true⟩, ⟨p.fundingAccount, true, true⟩,
       ⟨p.destinationPoolAccount, false, true⟩, ⟨p.managerFeeAccount, false, true⟩,
       ⟨p.referralPoolAccount, false, true⟩, ⟨p.poolMint, false, true⟩,
       ⟨systemProgramId, false, false⟩, ⟨TOKEN_PROGRAM_ID, false, false⟩] ++
      (match p.depositAuthority with
       | some a => [⟨a, true, false⟩]
       | none => []),
    data := 14 :: leBytes 8 p.lamports }

/-- Parameters of the CreateTokenMetadata builder. -/
structure CreateTokenMetadataParams where
  stakePool : Pubkey
  manager : Pubkey
  tokenMetadata : Pubkey
  withdrawAuthority : Pubkey
  poolMint : Pubkey
  payer : Pubkey
  name : List Nat
  symbol : List Nat
  uri : List Nat
  deriving DecidableEq, Repr

/-- StakePoolInstruction.createTokenMetadata: the layout validation runs
before any payload is encoded (its error propagates out of the builder). -/
def StakePoolInstruction.createTokenMetadata (p : CreateTokenMetadataParams) :
    Except String TransactionInstruction := do
  let t ← tokenMetadataLayout 18 p.name.length p.symbol.length p.uri.length
  pure
    { programId := STAKE_POOL_PROGRAM_ID,
      keys :=
        [⟨p.stakePool, false, false⟩, ⟨p.manager, true, false⟩,
         ⟨p.withdrawAuthority, false, false⟩, ⟨p.tokenMetadata, false, true⟩,
         ⟨METADATA_PROGRAM_ID, false, false⟩],
      data := encodeTokenMetadataData t p.name p.symbol p.uri }

/-- checkProgramId: the decoder-side guard compares against
StakeProgram.programId (the stake program, not the stake-pool program). -/
def checkProgramId (programId : Pubkey) : Except String Unit :=
  if programId ≠ stakeProgramId then
    .error "Invalid instruction; programId is not StakeProgram"
  else .ok ()

/-- checkKeyLength: the account list must meet the expected minimum. -/
def checkKeyLength (keys : List AccountMeta) (expectedLength : Nat) : Except String Unit :=
  if keys.length < expectedLength then
    .error "Invalid instruction; found fewer keys than expected"
  else .ok ()

/-- decodeData for a layout whose payload is parsed by p: parse the
instruction byte and the fields, fail on a short buffer, and fail when
the opcode tag does not match the expected index. -/
def decodeData (index : Nat) (p : Parser α) (buffer : List Nat) : Except String (Nat × α) :=
  match (do
      let i ← pByte
      let fields ← p
      pure (i, fields) : Parser (Nat × α)) buffer with
  | none => .error "invalid instruction; decode failure"
  | some ((i, fields), _) =>
    if i ≠ index then .error "invalid instruction; instruction index mismatch"
    else .ok (i, fields)

/-- Key at a fixed position (the source indexes after checkKeyLength). -/
def keyAt (keys : List AccountMeta) (i : Nat) : Pubkey :=
  (keys.getD i ⟨0, false, false⟩).pubkey

/-- StakePoolInstruction.decodeDepositStake. -/
def decodeDepositStake (instruction : TransactionInstruction) :
    Except String DepositStakeParams := do
  let _ ← checkProgramId instruction.programId
  let _ ← checkKeyLength instruction.keys 11
  let _ ← decodeData 9 (pure ()) instruction.data
  pure
    { stakePool := keyAt instruction.keys 0,
      validatorList := keyAt instruction.keys 1,
      depositAuthority := keyAt instruction.keys 2,
      withdrawAuthority := keyAt instruction.keys 3,
      depositStake := keyAt instruction.keys 4,
      validatorStake := keyAt instruction.keys 5,
      reserveStake := keyAt instruction.keys 6,
      destinationPoolAccount := keyAt instruction.keys 7,
      managerFeeAccount := keyAt instruction.keys 8,
      referralPoolAccount := keyAt instruction.keys 9,
      poolMint := keyAt instruction.keys 10 }

/-- StakePoolInstruction.decodeDepositSol.  Note: the source destructures
the decoded payload as amount although the layout names the field
lamports, so the JavaScript result carries undefined there; the decoded
numeric payload itself is modelled here. -/
def decodeDepositSol (instruction : TransactionInstruction) :
    Except String DepositSolParams := do
  let _ ← checkProgramId instruction.programId
  let _ ← checkKeyLength instruction.keys 9
  let d ← decodeData 14 pU64 instruction.data
  pure
    { stakePool := keyAt instruction.keys 0,
      depositAuthority := some (keyAt instruction.keys 1),
      withdrawAuthority := keyAt instruction.keys 2,
      reserveStake := keyAt instruction.keys 3,
      fundingAccount := keyAt instruction.keys 4,
      destinationPoolAccount := keyAt instruction.keys 5,
      managerFeeAccount := keyAt instruction.keys 6,
      referralPoolAccount := keyAt instruction.keys 7,
      poolMint := keyAt instruction.keys 8,
      lamports := d.2 }

/-! ### High-level operations (Transaction Assembler) -/

/-- increaseValidatorStake: fetch pool and validator list, locate the
validator, then select the transient seed - bumped by one without a
caller-supplied ephemeral seed (simple variant), reused unchanged with
one (additional variant, which also derives an ephemeral stake account). -/
def increaseValidatorStake (connection : Connection) (stakePoolAddress validatorVote : Pubkey)
    (lamports : Nat) (ephemeralStakeSeed : Option Nat := none) :
    Except String (List TransactionInstruction) := do
  let stakePool ← getStakePoolAccount connection stakePoolAddress
  let validatorList ← getValidatorListAccount connection stakePool.data.validatorList
  let validatorInfo ←
    match validatorList.data.validators.find? (·.voteAccountAddress = validatorVote) with
    | none => Except.error "Vote account not found in validator list"
    | some v => Except.ok v
  let withdrawAuthority := findWithdrawAuthorityProgramAddress STAKE_POOL_PROGRAM_ID
    stakePoolAddress
  let transientStakeSeed :=
    match ephemeralStakeSeed with
    | none => validatorInfo.transientSeedSuffixStart + 1
    | some _ => validatorInfo.transientSeedSuffixStart
  let transientStake := findTransientStakeProgramAddress STAKE_POOL_PROGRAM_ID
    validatorInfo.voteAccountAddress stakePoolAddress transientStakeSeed
  let validatorStake := findStakeProgramAddress STAKE_POOL_PROGRAM_ID
    validatorInfo.voteAccountAddress stakePoolAddress
  let params : IncreaseValidatorStakeParams :=
    { stakePool := stakePoolAddress, staker := stakePool.data.staker,
      validatorList := stakePool.data.validatorList,
      reserveStake := stakePool.data.reserveStake,
      transientStakeSeed, withdrawAuthority, transientStake, validatorStake,
      validatorVote, lamports }
  match ephemeralStakeSeed with
  | some seed =>
    let ephemeralStake := findEphemeralStakeProgramAddress STAKE_POOL_PROGRAM_ID
      stakePoolAddress seed
    pure [StakePoolInstruction.increaseAdditionalValidatorStake params ephemeralStake seed]
  | none =>
    pure [StakePoolInstruction.increaseValidatorStake params]

/-- decreaseValidatorStake: same seed policy as the increase direction;
the simple variant is DecreaseValidatorStakeWithReserve. -/
def decreaseValidatorStake (connection : Connection) (stakePoolAddress validatorVote : Pubkey)
    (lamports : Nat) (ephemeralStakeSeed : Option Nat := none) :
    Except String (List TransactionInstruction) := do
  let stakePool ← getStakePoolAccount connection stakePoolAddress
  let validatorList ← getValidatorListAccount connection stakePool.data.validatorList
  let validatorInfo ←
    match validatorList.data.validators.find? (·.voteAccountAddress = validatorVote) with
    | none => Except.error "Vote account not found in validator list"
    | some v => Except.ok v
  let withdrawAuthority := findWithdrawAuthorityProgramAddress STAKE_POOL_PROGRAM_ID
    stakePoolAddress
  let validatorStake := findStakeProgramAddress STAKE_POOL_PROGRAM_ID
    validatorInfo.voteAccountAddress stakePoolAddress
  let transientStakeSeed :=
    match ephemeralStakeSeed with
    | none => validatorInfo.transientSeedSuffixStart + 1
    | some _ => validatorInfo.transientSeedSuffixStart
  let transientStake := findTransientStakeProgramAddress STAKE_POOL_PROGRAM_ID
    validatorInfo.voteAccountAddress stakePoolAddress transientStakeSeed
  let params : DecreaseValidatorStakeParams :=
    { stakePool := stakePoolAddress, staker := stakePool.data.staker,
      validatorList := stakePool.data.validatorList,
      reserveStake := stakePool.data.reserveStake,
      transientStakeSeed, withdrawAuthority, validatorStake, transientStake, lamports }
  match ephemeralStakeSeed with
  | some seed =>
    let ephemeralStake := findEphemeralStakeProgramAddress STAKE_POOL_PROGRAM_ID
      stakePoolAddress seed
    pure [StakePoolInstruction.decreaseAdditionalValidatorStake params ephemeralStake seed]
  | none =>
    pure [StakePoolInstruction.decreaseValidatorStakeWithReserve params]

/-- createPoolTokenMetadata: the stake-pool account fetch (a network
call) happens first; the metadata length validation only runs inside the
instruction builder afterwards. -/
def createPoolTokenMetadata (connection : Connection) (stakePoolAddress payer : Pubkey)
    (name symbol uri : List Nat) : Except String (List TransactionInstruction) := do
  let stakePool ← getStakePoolAccount connection stakePoolAddress
  let withdrawAuthority := findWithdrawAuthorityProgramAddress STAKE_POOL_PROGRAM_ID
    stakePoolAddress
  let tokenMetadata := findMetadataAddress stakePool.data.poolMint
  let manager := stakePool.data.manager
  let ix ← StakePoolInstruction.createTokenMetadata
    { stakePool := stakePoolAddress, poolMint := stakePool.data.poolMint,
      payer, manager, tokenMetadata, withdrawAuthority, name, symbol, uri }
  pure [ix]

/-- The instructions emitted by the high-level withdraw operations.
Instructions from other programs (token approve, system create-account,
stake merge) and the two withdraw builders are kept as typed nodes
because their pool-token payloads are JavaScript numbers that may be
fractional, which the fixed-width byte encoding cannot represent. -/
inductive HighLevelIx
  | approve (account delegate owner : Pubkey) (amount : ℚ)
  | createStakeAccount (fromPubkey newAccountPubkey : Pubkey)
      (lamports space : Nat) (programId : Pubkey)
  | withdrawStakeIx (stakePool validatorList validatorStake destinationStake
      destinationStakeAuthority sourceTransferAuthority sourcePoolAccount
      managerFeeAccount poolMint withdrawAuthority : Pubkey) (poolTokens : ℚ)
  | withdrawSolIx (stakePool withdrawAuthority reserveStake sourcePoolAccount
      sourceTransferAuthority destinationSystemAccount managerFeeAccount
      poolMint : Pubkey) (solWithdrawAuthority : Option Pubkey) (poolTokens : ℚ)
  deriving DecidableEq, Repr

/-- Fixed data of the withdraw-stake instruction loop. -/
structure WithdrawLoopEnv where
  stakePoolAddress : Pubkey
  validatorList : Pubkey
  managerFeeAccount : Pubkey
  poolMint : Pubkey
  withdrawAuthority : Pubkey
  tokenOwner : Pubkey
  poolTokenAccount : Pubkey
  userTransferAuthority : Pubkey
  stakeReceiver : Option Pubkey
  receiverDelegated : Bool
  stakeAccountRentExemption : Nat
  freshKeys : Nat → Pubkey

/-- The withdraw-stake instruction loop: i counts processed plan entries
and the loop breaks once i exceeds maxWithdrawAccounts = 5 (so up to six
entries are processed); k indexes the fresh-keypair stream (modelling
Keypair.generate).  Returns the pushed instructions, the new-account
signers and the accumulated rent-free total. -/
def withdrawStakeLoop (env : WithdrawLoopEnv) :
    List WithdrawAccount → Nat → Nat → List HighLevelIx × List Pubkey × Nat
  | [], _, _ => ([], [], 0)
  | wa :: rest, i, k =>
    if 5 < i then ([], [], 0)
    else
      let makeNew := env.stakeReceiver.isNone ∨ env.receiverDelegated
      let stakeToReceive := if makeNew then env.freshKeys k else env.stakeReceiver.getD 0
      let created : List HighLevelIx :=
        if makeNew then
          [.createStakeAccount env.tokenOwner (env.freshKeys k)
            env.stakeAccountRentExemption stakeProgramSpace stakeProgramId]
        else []
      let ix := HighLevelIx.withdrawStakeIx env.stakePoolAddress env.validatorList
        wa.stakeAddress stakeToReceive env.tokenOwner env.userTransferAuthority
        env.poolTokenAccount env.managerFeeAccount env.poolMint env.withdrawAuthority
        wa.poolAmount
      let restOut := withdrawStakeLoop env rest (i + 1) (if makeNew then k + 1 else k)
      (created ++ ix :: restOut.1,
        (if makeNew then [env.freshKeys k] else []) ++ restOut.2.1,
        (if makeNew then env.stakeAccountRentExemption else 0) + restOut.2.2)

/-- Result record of withdrawStake. -/
structure WithdrawStakeResult where
  instructions : List HighLevelIx
  signers : List Pubkey
  stakeReceiver : Option Pubkey
  totalRentFreeBalances : Nat
  deriving DecidableEq, Repr

/-- Everything withdrawStake computes before it starts pushing
instructions. -/
structure WithdrawPlanParts where
  stakePool : StakePoolAccount
  poolAmount : ℚ
  poolTokenAccount : Pubkey
  stakeAccountRentExemption : Nat
  stakeReceiverAccount : Option ParsedStakeAccount
  withdrawAccounts : List WithdrawAccount
  deriving DecidableEq, Repr

/-- The state-and-plan half of withdrawStake: fetch state, resolve the
pool-token source account and check its balance, and resolve the
withdrawal plan through the four-way branch (reserve, delegated
receiver, explicit vote account, automatic selection). -/
def withdrawStakePlanParts (connection : Connection)
    (stakePoolAddress tokenOwner : Pubkey) (amount : JsNumber)
    (useReserve : Bool := false) (voteAccountAddress : Option Pubkey := none)
    (stakeReceiver : Option Pubkey := none) (poolTokenAccountArg : Option Pubkey := none)
    (validatorComparator : Option (Candidate → Candidate → ℤ) := none) :
    Except String WithdrawPlanParts := do
  let stakePool ← getStakePoolAccount connection stakePoolAddress
  let poolAmount := solToLamports amount
  let poolTokenAccount := poolTokenAccountArg.getD
    (getAssociatedTokenAddressSync stakePool.data.poolMint tokenOwner)
  let tokenAccountAmount ←
    match connection.getTokenAccountAmount poolTokenAccount with
    | none => Except.error "TokenAccountNotFoundError"
    | some a => Except.ok a
  if (tokenAccountAmount : ℚ) < poolAmount then
    Except.error "Not enough token balance to withdraw"
  else do
  let stakeAccountRentExemption :=
    connection.getMinimumBalanceForRentExemption stakeProgramSpace
  -- The source derives withdrawAuthority here; being a pure derivation it
  -- is recomputed in the assembly half below.
  let stakeReceiverAccount : Option ParsedStakeAccount ←
    match stakeReceiver with
    | none => pure none
    | some r => (getStakeAccount connection r).map some
  let receiverDelegated : Bool :=
    match stakeReceiverAccount with
    | some sra => sra.type = StakeAccountType.delegated
    | none => false
  let withdrawAccounts : List WithdrawAccount ←
    if useReserve then
      pure [{ stakeAddress := stakePool.data.reserveStake, voteAddress := none, poolAmount }]
    else if receiverDelegated then do
      -- stakeReceiverAccount is some and delegated here
      let sra := stakeReceiverAccount.getD ⟨StakeAccountType.delegated, none⟩
      let voteAccount ←
        match sra.delegationVoter with
        | none => Except.error "Invalid stake receiver delegation"
        | some v => Except.ok v
      let validatorList ←
        match connection.getAccountInfo stakePool.data.validatorList with
        | none => Except.error "TypeError: cannot decode missing account data"
        | some acc =>
          match ValidatorListLayout.decode acc.data with
          | none => Except.error "RangeError"
          | some vl => Except.ok vl
      let isValidVoter := validatorList.validators.find? (·.voteAccountAddress = voteAccount)
      -- The source compares the PublicKey objects with a strict
      -- JavaScript inequality; it is modelled as value inequality.
      if voteAccountAddress.isSome ∧ voteAccountAddress ≠ some voteAccount then
        Except.error "Provided withdrawal vote account does not match delegation on stake receiver account"
      else
        match isValidVoter with
        | some _ => do
          let stakeAccountAddress := findStakeProgramAddress STAKE_POOL_PROGRAM_ID
            voteAccount stakePoolAddress
          let stakeAccount ←
            match connection.getAccountInfo stakeAccountAddress with
            | none => Except.error "Preferred withdraw validators stake account is invalid"
            | some a => Except.ok a
          let availableForWithdrawal := calcLamportsWithdrawAmount stakePool.data
            ((stakeAccount.lamports : ℤ) - (MINIMUM_ACTIVE_STAKE : ℤ) -
              (stakeAccountRentExemption : ℤ))
          if availableForWithdrawal < poolAmount then
            Except.error "Not enough lamports available for withdrawal"
          else
            pure [{ stakeAddress := stakeAccountAddress,
                    voteAddress := some voteAccount, poolAmount }]
        | none =>
          Except.error "Provided stake account is delegated to a vote account which does not exist in the stake pool"
    else
      match voteAccountAddress with
      | some vote => do
        let stakeAccountAddress := findStakeProgramAddress STAKE_POOL_PROGRAM_ID
          vote stakePoolAddress
        let stakeAccount ←
          match connection.getAccountInfo stakeAccountAddress with
          | none => Except.error "Invalid Stake Account"
          | some a => Except.ok a
        let availableForWithdrawal := calcLamportsWithdrawAmount stakePool.data
          ((stakeAccount.lamports : ℤ) - (MINIMUM_ACTIVE_STAKE : ℤ) -
            (stakeAccountRentExemption : ℤ))
        if availableForWithdrawal < poolAmount then
          Except.error "Not enough lamports available for withdrawal"
        else
          pure [{ stakeAddress := stakeAccountAddress, voteAddress := some vote, poolAmount }]
      | none =>
        prepareWithdrawAccounts connection stakePool.data stakePoolAddress poolAmount
          validatorComparator (poolTokenAccount = stakePool.data.managerFeeAccount)
  pure
    { stakePool, poolAmount, poolTokenAccount, stakeAccountRentExemption,
      stakeReceiverAccount, withdrawAccounts }

/-- The instruction-building half of withdrawStake: the approve
instruction followed by the capped withdraw loop.  Keypair.generate is
modelled by the freshKeys stream (index 0 is the user transfer
authority).  The final stake-merge block of the source calls
Array.concat and discards its result, so it contributes nothing. -/
def assembleWithdrawStake (freshKeys : Nat → Pubkey)
    (stakePoolAddress tokenOwner : Pubkey) (stakeReceiver : Option Pubkey)
    (parts : WithdrawPlanParts) : WithdrawStakeResult :=
  let withdrawAuthority := findWithdrawAuthorityProgramAddress STAKE_POOL_PROGRAM_ID
    stakePoolAddress
  let receiverDelegated : Bool :=
    match parts.stakeReceiverAccount with
    | some sra => sra.type = StakeAccountType.delegated
    | none => false
  let userTransferAuthority := freshKeys 0
  let env : WithdrawLoopEnv :=
    { stakePoolAddress, validatorList := parts.stakePool.data.validatorList,
      managerFeeAccount := parts.stakePool.data.managerFeeAccount,
      poolMint := parts.stakePool.data.poolMint, withdrawAuthority, tokenOwner,
      poolTokenAccount := parts.poolTokenAccount, userTransferAuthority,
      stakeReceiver, receiverDelegated,
      stakeAccountRentExemption := parts.stakeAccountRentExemption, freshKeys }
  let loopOut := withdrawStakeLoop env parts.withdrawAccounts 0 1
  { instructions :=
      HighLevelIx.approve parts.poolTokenAccount userTransferAuthority tokenOwner
        parts.poolAmount :: loopOut.1,
    signers := userTransferAuthority :: loopOut.2.1,
    stakeReceiver,
    totalRentFreeBalances := loopOut.2.2 }

/-- withdrawStake: the plan computation followed by instruction
assembly. -/
def withdrawStake (connection : Connection) (freshKeys : Nat → Pubkey)
    (stakePoolAddress tokenOwner : Pubkey) (amount : JsNumber)
    (useReserve : Bool := false) (voteAccountAddress : Option Pubkey := none)
    (stakeReceiver : Option Pubkey := none) (poolTokenAccountArg : Option Pubkey := none)
    (validatorComparator : Option (Candidate → Candidate → ℤ) := none) :
    Except String WithdrawStakeResult :=
  (withdrawStakePlanParts connection stakePoolAddress tokenOwner amount useReserve
      voteAccountAddress stakeReceiver poolTokenAccountArg validatorComparator).map
    (assembleWithdrawStake freshKeys stakePoolAddress tokenOwner stakeReceiver)

/-- Result record of withdrawSol. -/
structure WithdrawSolResult where
  instructions : List HighLevelIx
  signers : List Pubkey
  deriving DecidableEq, Repr

/-- withdrawSol: fetch the pool, convert the SOL amount, check the
pool-token balance, validate the optional SOL-withdraw authority against
the pool state, and emit approve plus the withdraw-sol instruction. -/
def withdrawSol (connection : Connection) (freshKeys : Nat → Pubkey)
    (stakePoolAddress tokenOwner solReceiver : Pubkey) (amount : JsNumber)
    (solWithdrawAuthority : Option Pubkey := none) :
    Except String WithdrawSolResult := do
  let stakePool ← getStakePoolAccount connection stakePoolAddress
  let poolAmount := solToLamports amount
  let poolTokenAccount := getAssociatedTokenAddressSync stakePool.data.poolMint tokenOwner
  let tokenAccountAmount ←
    match connection.getTokenAccountAmount poolTokenAccount with
    | none => Except.error "TokenAccountNotFoundError"
    | some a => Except.ok a
  if (tokenAccountAmount : ℚ) < poolAmount then
    Except.error "Not enough token balance to withdraw"
  else do
  let userTransferAuthority := freshKeys 0
  let poolWithdrawAuthority := findWithdrawAuthorityProgramAddress STAKE_POOL_PROGRAM_ID
    stakePoolAddress
  let _ ←
    match solWithdrawAuthority with
    | none => Except.ok ()
    | some a =>
      match stakePool.data.solWithdrawAuthority with
      | none => Except.error "SOL withdraw authority specified in arguments but stake pool has none"
      | some expected =>
        if a ≠ expected then Except.error "Invalid deposit withdraw specified"
        else Except.ok ()
  pure
    { instructions :=
        [HighLevelIx.approve poolTokenAccount userTransferAuthority tokenOwner poolAmount,
         HighLevelIx.withdrawSolIx stakePoolAddress poolWithdrawAuthority
           stakePool.data.reserveStake poolTokenAccount userTransferAuthority
           solReceiver stakePool.data.managerFeeAccount stakePool.data.poolMint
           solWithdrawAuthority poolAmount],
      signers := [userTransferAuthority] }

/-! ### Concrete fixtures

Byte-level encoders inverse to the layouts, used to build concrete
on-ledger account images for the witnesses, plus small concrete
connections. -/

/-- Encode one ValidatorStakeInfo entry per the layout. -/
def encodeValidatorStakeInfo (v : ValidatorStakeInfo) : List Nat :=
  leBytes 8 v.activeStakeLamports ++ leBytes 8 v.transientStakeLamports ++
    leBytes 8 v.lastUpdateEpoch ++ leBytes 8 v.transientSeedSuffixStart ++
    leBytes 8 v.transientSeedSuffixEnd ++ [v.status] ++
    pubkeyToBuffer v.voteAccountAddress

/-- Encode a ValidatorList account image per the layout. -/
def encodeValidatorList (vl : ValidatorList) : List Nat :=
  vl.accountType :: (leBytes 4 vl.maxValidators ++
    leBytes 4 vl.validators.length ++
    vl.validators.flatMap encodeValidatorStakeInfo)

/-- An all-zero StakePool account image: tag byte 1 followed by zeros
(all optional fields absent, all balances and fees zero). -/
def zeroPoolData : List Nat := 1 :: List.replicate 434 0

/-- The StakePool value zeroPoolData decodes to. -/
def zeroPool : StakePool :=
  { accountType := 1, manager := 0, staker := 0, stakeDepositAuthority := 0,
    stakeWithdrawBumpSeed := 0, validatorList := 0, reserveStake := 0,
    poolMint := 0, managerFeeAccount := 0, tokenProgramId := 0,
    totalLamports := 0, poolTokenSupply := 0, lastUpdateEpoch := 0,
    lockup := ⟨0, 0, 0⟩, epochFee := ⟨0, 0⟩, nextEpochFee := none,
    preferredDepositValidatorVoteAddress := none,
    preferredWithdrawValidatorVoteAddress := none,
    stakeDepositFee := ⟨0, 0⟩, stakeWithdrawalFee := ⟨0, 0⟩,
    nextStakeWithdrawalFee := none, stakeReferralFee := 0,
    solDepositAuthority := none, solDepositFee := ⟨0, 0⟩, solReferralFee := 0,
    solWithdrawAuthority := none, solWithdrawalFee := ⟨0, 0⟩,
    nextSolWithdrawalFee := none, lastEpochPoolTokenSupply := 0,
    lastEpochTotalLamports := 0 }

/-- Seven Active validators with vote accounts 1..7,
descending active balances 7..1, and transient seed suffixes 0. -/
def validators7 : List ValidatorStakeInfo :=
  (List.range 7).map fun j =>
    { activeStakeLamports := 7 - j, transientStakeLamports := 0,
      lastUpdateEpoch := 0, transientSeedSuffixStart := 0,
      transientSeedSuffixEnd := 0, status := 0, voteAccountAddress := j + 1 }

/-- The validator-list account image holding validators7 (tag byte 2). -/
def vlData7 : List Nat :=
  encodeValidatorList { accountType := 2, maxValidators := 7, validators := validators7 }

/-- Account envelope around the zero pool image. -/
def poolAccountInfo : AccountInfo :=
  { data := zeroPoolData, executable := false, lamports := 0, owner := STAKE_POOL_PROGRAM_ID }

/-- Account envelope around the seven-validator list image. -/
def vlAccountInfo : AccountInfo :=
  { data := vlData7, executable := false, lamports := 0, owner := STAKE_POOL_PROGRAM_ID }

/-- A concrete ledger: the pool image sits at the hard-coded fetch
address, the validator list at address 0 (where the zero pool points its
validatorList and reserveStake), rent exemption is zero, every token
account reports a balance of 1000, and the bulk scan returns three
accounts whose middle entry carries the unknown tag byte 5. -/
def conn7 : Connection :=
  { getAccountInfo := fun pk =>
      if pk = hardcodedFetchAddress then some poolAccountInfo
      else if pk = 0 then some vlAccountInfo
      else none,
    getProgramAccounts := fun _ =>
      [(10, poolAccountInfo),
       (11, { data := [5], executable := false, lamports := 0,
              owner := STAKE_POOL_PROGRAM_ID }),
       (12, poolAccountInfo)],
    getMinimumBalanceForRentExemption := fun _ => 0,
    getTokenAccountAmount := fun _ => some 1000,
    getParsedStakeAccount := fun _ => none }

/-- A ledger carrying a valid pool image at address 42 and nothing at the
hard-coded fetch address. -/
def connAt42 : Connection :=
  { getAccountInfo := fun pk => if pk = 42 then some poolAccountInfo else none,
    getProgramAccounts := fun _ => [],
    getMinimumBalanceForRentExemption := fun _ => 0,
    getTokenAccountAmount := fun _ => none,
    getParsedStakeAccount := fun _ => none }

/-- An empty ledger. -/
def connEmpty : Connection :=
  { getAccountInfo := fun _ => none,
    getProgramAccounts := fun _ => [],
    getMinimumBalanceForRentExemption := fun _ => 0,
    getTokenAccountAmount := fun _ => none,
    getParsedStakeAccount := fun _ => none }

/-- A ledger whose program-account scan returns a single account with an
empty data buffer. -/
def connEmptyData : Connection :=
  { getAccountInfo := fun _ => none,
    getProgramAccounts := fun _ =>
      [(9, { data := [], executable := false, lamports := 0,
             owner := STAKE_POOL_PROGRAM_ID })],
    getMinimumBalanceForRentExemption := fun _ => 0,
    getTokenAccountAmount := fun _ => none,
    getParsedStakeAccount := fun _ => none }

/-- The fresh-keypair stream used by the witnesses. -/
def freshKeys0 (n : Nat) : Pubkey := 1000 + n

/-- The SOL amount whose lamport value is exactly 28. -/
def amount28 : JsNumber := some ((28 : ℚ) / (LAMPORTS_PER_SOL : ℚ))

/-- Number of withdraw-stake instructions in an instruction list. -/
def countWithdrawStakeIxs (l : List HighLevelIx) : Nat :=
  (l.filter fun ix =>
    match ix with
    | .withdrawStakeIx _ _ _ _ _ _ _ _ _ _ _ => true
    | _ => false).length

/-- The per-entry body of the bulk scan as a pure function (well defined
whenever the account data is nonempty, with headD supplying the tag). -/
def scanEntry (pa : Pubkey × AccountInfo) : PoolAccountEntry :=
  let tag := pa.2.data.headD 0
  { pubkey := pa.1,
    data :=
      if tag = 1 then (StakePoolLayout.decode pa.2.data).map .inl
      else if tag = 2 then (ValidatorListLayout.decode pa.2.data).map .inr
      else none,
    executable := pa.2.executable, lamports := pa.2.lamports, owner := pa.2.owner }

/-- A pool at a one-to-one exchange rate (the claimed scenario). -/
def poolOneToOne : StakePool :=
  { zeroPool with totalLamports := 1000000, poolTokenSupply := 1000000 }

/-- Concrete deposit-stake builder parameters for the round-trip check. -/
def depositStakeParams0 : DepositStakeParams :=
  { stakePool := 1, validatorList := 2, depositAuthority := 3, withdrawAuthority := 4,
    depositStake := 5, validatorStake := 6, reserveStake := 7,
    destinationPoolAccount := 8, managerFeeAccount := 9, referralPoolAccount := 10,
    poolMint := 11 }

/-- Concrete deposit-sol builder parameters for the round-trip check. -/
def depositSolParams0 : DepositSolParams :=
  { stakePool := 1, depositAuthority := none, withdrawAuthority := 2, reserveStake := 3,
    fundingAccount := 4, destinationPoolAccount := 5, managerFeeAccount := 6,
    referralPoolAccount := 7, poolMint := 8, lamports := 123 }

/-- A 33-byte name (33 repetitions of the letter a). -/
def name33 : List Nat := List.replicate 33 97

/-- Sum of the pool amounts of a withdrawal plan. -/
def sumPoolAmounts (plan : List WithdrawAccount) : ℚ :=
  (plan.map (·.poolAmount)).sum

/-- Non-negative withdrawal capacity of one candidate. -/
def candidateCapacity (stakePool : StakePool) (skipFee : Bool) (c : Candidate) : ℚ :=
  max (availableForWithdrawal stakePool skipFee c) 0

/-- Total capacity of a candidate list. -/
def totalCapacity (stakePool : StakePool) (skipFee : Bool) (l : List Candidate) : ℚ :=
  (l.map (candidateCapacity stakePool skipFee)).sum

/-- The candidate list the seven-validator fixture produces. -/
def candidates7 : List Candidate :=
  (List.range 7).map fun j =>
    { ctype := CandidateType.active, voteAddress := some (j + 1),
      stakeAddress := findStakeProgramAddress STAKE_POOL_PROGRAM_ID (j + 1) 42,
      lamports := ((7 - j : Nat) : ℤ) }

/-- The prepare context the seven-validator fixture produces. -/
def ctx7 : PrepareContext :=
  { validators := validators7, minBalanceForRentExemption := 0,
    minBalance := 1000000000, accounts := candidates7 }

/-- The withdrawal plan the seven-validator fixture produces for a
28-token request. -/
def plan7 : List WithdrawAccount :=
  (List.range 7).map fun j =>
    { stakeAddress := findStakeProgramAddress STAKE_POOL_PROGRAM_ID (j + 1) 42,
      voteAddress := some (j + 1), poolAmount := ((7 - j : Nat) : ℚ) }

/-- The stake-pool account record fetched on the fixture ledger. -/
def spAcct7 : StakePoolAccount :=
  { pubkey := 42, data := zeroPool, executable := false, lamports := 0,
    owner := STAKE_POOL_PROGRAM_ID }

/-- The validator-list account record fetched on the fixture ledger. -/
def vlAcct7 : ValidatorListAccount :=
  { pubkey := 0,
    data := { accountType := 2, maxValidators := 7, validators := validators7 },
    executable := false, lamports := 0, owner := STAKE_POOL_PROGRAM_ID }

/-- The plan parts withdrawStake computes for a 28-lamport SOL request on
the fixture ledger. -/
def parts7 : WithdrawPlanParts :=
  { stakePool := spAcct7, poolAmount := 28,
    poolTokenAccount := getAssociatedTokenAddressSync zeroPool.poolMint 43,
    stakeAccountRentExemption := 0, stakeReceiverAccount := none,
    withdrawAccounts := plan7 }

/-! ## Theorems -/

/-- For the non-negative operands occurring in the library,
divideBnToNumber computes the exact rational quotient. -/
theorem divideBnToNumber_eq_div (n d : ℤ) (hn : 0 ≤ n) (hd : 0 < d) :
    divideBnToNumber n d = (n : ℚ) / (d : ℚ) := by
  unfold divideBnToNumber
  rw [if_neg hd.ne', Int.tdiv_eq_ediv hn hd.le]
  have hdq : (d : ℚ) ≠ 0 := Int.cast_ne_zero.mpr hd.ne'
  field_simp
  exact_mod_cast (by show n / d * d + n % d = n; rw [Int.emod_def]; ring :
    n / d * d + n.emod d = n)

/-- Flooring divideBnToNumber recovers the integer quotient. -/
theorem floor_divideBnToNumber (n : ℤ) (d : ℕ) (hn : 0 ≤ n) (hd : 0 < d) :
    ⌊divideBnToNumber n (d : ℤ)⌋ = n / (d : ℤ) := by
  rw [divideBnToNumber_eq_div n (d : ℤ) hn (by exact_mod_cast hd)]
  exact_mod_cast Rat.floor_intCast_div_natCast n d

/-- Claim C8: for a pool with nonzero pool-token supply and total
lamports, calcPoolTokensForDeposit of a non-negative stake amount equals
the floor of stakeLamports times poolTokenSupply divided by
totalLamports (the floor being the integer division of the exact
products, with no rounding loss on the way). -/
theorem claim_C8_calcPoolTokensForDeposit_floor (stakePool : StakePool)
    (stakeLamports : ℤ) (h0 : 0 ≤ stakeLamports)
    (h1 : stakePool.poolTokenSupply ≠ 0) (h2 : stakePool.totalLamports ≠ 0) :
    calcPoolTokensForDeposit stakePool stakeLamports =
      (stakeLamports * (stakePool.poolTokenSupply : ℤ)) / (stakePool.totalLamports : ℤ) := by
  unfold calcPoolTokensForDeposit
  rw [if_neg (by push_neg; exact ⟨h1, h2⟩)]
  exact floor_divideBnToNumber _ _
    (mul_nonneg h0 (Int.natCast_nonneg _)) (Nat.pos_of_ne_zero h2)

/-- Witness for C8: the claimed scenario - a pool holding 1000000
lamports against 1000000 pool tokens converts a 500-lamport deposit to
exactly 500 pool tokens. -/
theorem claim_C8_witness :
    calcPoolTokensForDeposit poolOneToOne 500 = 500 :=
  (claim_C8_calcPoolTokensForDeposit_floor poolOneToOne 500 (by decide)
    (by decide) (by decide)).trans (by decide)

/-! ### Invariants of the greedy selection loop -/

/-- A selection step never increases the remaining amount. -/
theorem selectStep_remaining_le (sp : StakePool) (mb : Nat) (skipFee : Bool)
    (st : SelState) (c : Candidate) :
    (selectStep sp mb skipFee st c).remainingAmount ≤ st.remainingAmount := by
  simp only [selectStep]
  split_ifs with h1 h2 h3
  · exact le_refl _
  · exact le_refl _
  · exact le_refl _
  · simp only
    linarith [not_le.mp h3]

/-- The whole walk never increases the remaining amount. -/
theorem foldl_selectStep_remaining_le (sp : StakePool) (mb : Nat) (skipFee : Bool) :
    ∀ (l : List Candidate) (st : SelState),
      ((l.foldl (selectStep sp mb skipFee) st)).remainingAmount ≤ st.remainingAmount
  | [], _ => le_refl _
  | c :: cs, st =>
    le_trans (foldl_selectStep_remaining_le sp mb skipFee cs (selectStep sp mb skipFee st c))
      (selectStep_remaining_le sp mb skipFee st c)

/-- A selection step preserves remaining + consumed. -/
theorem selectStep_invariant (sp : StakePool) (mb : Nat) (skipFee : Bool)
    (st : SelState) (c : Candidate) :
    (selectStep sp mb skipFee st c).remainingAmount +
        sumPoolAmounts (selectStep sp mb skipFee st c).withdrawFrom =
      st.remainingAmount + sumPoolAmounts st.withdrawFrom := by
  simp only [selectStep]
  split_ifs <;> simp [sumPoolAmounts]

/-- The whole walk preserves remaining + consumed. -/
theorem foldl_selectStep_invariant (sp : StakePool) (mb : Nat) (skipFee : Bool) :
    ∀ (l : List Candidate) (st : SelState),
      (l.foldl (selectStep sp mb skipFee) st).remainingAmount +
          sumPoolAmounts (l.foldl (selectStep sp mb skipFee) st).withdrawFrom =
        st.remainingAmount + sumPoolAmounts st.withdrawFrom
  | [], _ => rfl
  | c :: cs, st =>
    (foldl_selectStep_invariant sp mb skipFee cs (selectStep sp mb skipFee st c)).trans
      (selectStep_invariant sp mb skipFee st c)

/-- A selection step keeps the remaining amount non-negative. -/
theorem selectStep_remaining_nonneg (sp : StakePool) (mb : Nat) (skipFee : Bool)
    (st : SelState) (c : Candidate) (h : 0 ≤ st.remainingAmount) :
    0 ≤ (selectStep sp mb skipFee st c).remainingAmount := by
  simp only [selectStep]
  split_ifs
  · exact h
  · exact h
  · exact h
  · simp only
    linarith [min_le_right (availableForWithdrawal sp skipFee c) st.remainingAmount]

/-- The whole walk keeps the remaining amount non-negative. -/
theorem foldl_selectStep_remaining_nonneg (sp : StakePool) (mb : Nat) (skipFee : Bool) :
    ∀ (l : List Candidate) (st : SelState), 0 ≤ st.remainingAmount →
      0 ≤ (l.foldl (selectStep sp mb skipFee) st).remainingAmount
  | [], _, h => h
  | c :: cs, st, h =>
    foldl_selectStep_remaining_nonneg sp mb skipFee cs _
      (selectStep_remaining_nonneg sp mb skipFee st c h)

/-- A selection step appends at most one entry, copied from the
candidate. -/
theorem selectStep_withdrawFrom (sp : StakePool) (mb : Nat) (skipFee : Bool)
    (st : SelState) (c : Candidate) :
    ∃ t, (selectStep sp mb skipFee st c).withdrawFrom = st.withdrawFrom ++ t ∧
      ∀ e ∈ t, e.stakeAddress = c.stakeAddress ∧ e.voteAddress = c.voteAddress := by
  simp only [selectStep]
  split_ifs
  · exact ⟨[], by simp⟩
  · exact ⟨[], by simp⟩
  · exact ⟨[], by simp⟩
  · exact ⟨_, rfl, by simp⟩

/-- The walk only appends entries, each copied from some processed
candidate. -/
theorem foldl_selectStep_withdrawFrom (sp : StakePool) (mb : Nat) (skipFee : Bool) :
    ∀ (l : List Candidate) (st : SelState),
      ∃ t, (l.foldl (selectStep sp mb skipFee) st).withdrawFrom = st.withdrawFrom ++ t ∧
        ∀ e ∈ t, ∃ c ∈ l, e.stakeAddress = c.stakeAddress ∧ e.voteAddress = c.voteAddress
  | [], st => ⟨[], by simp⟩
  | c :: cs, st => by
    obtain ⟨t1, h1, h1e⟩ := selectStep_withdrawFrom sp mb skipFee st c
    obtain ⟨t2, h2, h2e⟩ :=
      foldl_selectStep_withdrawFrom sp mb skipFee cs (selectStep sp mb skipFee st c)
    refine ⟨t1 ++ t2, by simp [List.foldl_cons, h2, h1], fun e he => ?_⟩
    rcases List.mem_append.mp he with he1 | he2
    · exact ⟨c, List.mem_cons_self c cs, (h1e e he1).1, (h1e e he1).2⟩
    · obtain ⟨c2, hc2, hp⟩ := h2e e he2
      exact ⟨c2, List.mem_cons_of_mem c hc2, hp⟩

/-- A walk starting with no remaining amount changes nothing. -/
theorem foldl_selectStep_zero (sp : StakePool) (mb : Nat) (skipFee : Bool) :
    ∀ (l : List Candidate) (st : SelState), st.remainingAmount = 0 →
      l.foldl (selectStep sp mb skipFee) st = st
  | [], _, _ => rfl
  | c :: cs, st, h => by
    have hstep : selectStep sp mb skipFee st c = st := by
      unfold selectStep
      rw [if_pos h]
    rw [List.foldl_cons, hstep, foldl_selectStep_zero sp mb skipFee cs st h]

/-- When a positive remainder survives the walk, every candidate in the
walked list that passes the transient-minimum guard and has positive
capacity was consumed (it appears in the produced plan). -/
theorem foldl_selectStep_coverage (sp : StakePool) (mb : Nat) (skipFee : Bool) :
    ∀ (l : List Candidate) (st : SelState),
      0 < (l.foldl (selectStep sp mb skipFee) st).remainingAmount →
      ∀ c ∈ l, ¬(c.lamports ≤ (mb : ℤ) ∧ c.ctype = .transient) →
      0 < availableForWithdrawal sp skipFee c →
      ∃ e ∈ (l.foldl (selectStep sp mb skipFee) st).withdrawFrom,
        e.stakeAddress = c.stakeAddress ∧ e.voteAddress = c.voteAddress
  | c0 :: cs, st, hrem, c, hc, hguard, hcap => by
    rw [List.foldl_cons] at hrem ⊢
    rcases List.mem_cons.mp hc with rfl | hmem
    · -- the head candidate: the step at c must have pushed
      have hle := foldl_selectStep_remaining_le sp mb skipFee cs
        (selectStep sp mb skipFee st c)
      have hpos : 0 < st.remainingAmount := by
        rcases lt_trichotomy st.remainingAmount 0 with hlt | heq | hgt
        · -- a negative remainder makes the step skip, contradiction
          have hskip : selectStep sp mb skipFee st c = st := by
            simp only [selectStep]
            rw [if_neg hlt.ne, if_neg hguard, if_pos
              (le_trans (min_le_right _ _) hlt.le)]
          rw [hskip] at hrem hle
          linarith
        · -- a zero remainder absorbs the whole walk, contradiction
          have hskip : selectStep sp mb skipFee st c = st := by
            simp only [selectStep]
            rw [if_pos heq]
          rw [hskip, foldl_selectStep_zero sp mb skipFee cs st heq, heq] at hrem
          exact absurd hrem (lt_irrefl 0)
        · exact hgt
      have hpa : 0 < min (availableForWithdrawal sp skipFee c) st.remainingAmount :=
        lt_min hcap hpos
      have hstep : selectStep sp mb skipFee st c =
          { withdrawFrom := st.withdrawFrom ++
              [{ stakeAddress := c.stakeAddress, voteAddress := c.voteAddress,
                 poolAmount := min (availableForWithdrawal sp skipFee c)
                   st.remainingAmount }],
            remainingAmount := st.remainingAmount -
              min (availableForWithdrawal sp skipFee c) st.remainingAmount } := by
        unfold selectStep
        rw [if_neg hpos.ne', if_neg hguard, if_neg (not_le.mpr hpa)]
      obtain ⟨t, ht, _⟩ :=
        foldl_selectStep_withdrawFrom sp mb skipFee cs (selectStep sp mb skipFee st c)
      refine ⟨{ stakeAddress := c.stakeAddress, voteAddress := c.voteAddress,
                poolAmount := min (availableForWithdrawal sp skipFee c)
                  st.remainingAmount }, ?_, rfl, rfl⟩
      rw [ht, hstep]
      simp
    · exact foldl_selectStep_coverage sp mb skipFee cs
        (selectStep sp mb skipFee st c0) hrem c hmem hguard hcap
  | [], _, _, c, hc, _, _ => absurd hc (List.not_mem_nil c)

/-- One step consumes at most the candidate capacity. -/
theorem selectStep_capacity (sp : StakePool) (mb : Nat) (skipFee : Bool)
    (st : SelState) (c : Candidate) :
    st.remainingAmount - (selectStep sp mb skipFee st c).remainingAmount ≤
      candidateCapacity sp skipFee c := by
  simp only [selectStep, candidateCapacity]
  split_ifs
  · simp
  · simp
  · simp
  · simp only
    linarith [min_le_left (availableForWithdrawal sp skipFee c) st.remainingAmount,
      le_max_left (availableForWithdrawal sp skipFee c) (0 : ℚ)]

/-- The walk consumes at most the total capacity of the walked list. -/
theorem foldl_selectStep_capacity (sp : StakePool) (mb : Nat) (skipFee : Bool) :
    ∀ (l : List Candidate) (st : SelState),
      st.remainingAmount - (l.foldl (selectStep sp mb skipFee) st).remainingAmount ≤
        totalCapacity sp skipFee l
  | [], st => by simp [totalCapacity]
  | c :: cs, st => by
    have h1 := selectStep_capacity sp mb skipFee st c
    have h2 := foldl_selectStep_capacity sp mb skipFee cs (selectStep sp mb skipFee st c)
    rw [List.foldl_cons]
    simp only [totalCapacity, List.map_cons, List.sum_cons]
    have heq : totalCapacity sp skipFee cs =
        (cs.map (candidateCapacity sp skipFee)).sum := rfl
    linarith [h1, h2, heq]

/-- Bind on a successful Except value reduces to the continuation. -/
theorem exceptBind_ok {ε α β : Type} (a : α) (f : α → Except ε β) :
    (Except.ok a >>= f) = f a := rfl

/-- Bind on a failed Except value propagates the error. -/
theorem exceptBind_error {ε α β : Type} (e : ε) (f : α → Except ε β) :
    ((Except.error e : Except ε α) >>= f) = Except.error e := rfl

/-- Pure on Except is the ok constructor. -/
theorem exceptPure {ε α : Type} (a : α) : (pure a : Except ε α) = Except.ok a := rfl

/-- Unfolding of a successful prepareWithdrawAccounts run. -/
theorem prepareWithdrawAccounts_ok_elim {connection : Connection} {stakePool : StakePool}
    {stakePoolAddress : Pubkey} {amount : ℚ}
    {compareFn : Option (Candidate → Candidate → ℤ)} {skipFee : Bool}
    {plan : List WithdrawAccount}
    (h : prepareWithdrawAccounts connection stakePool stakePoolAddress amount compareFn
      skipFee = .ok plan) :
    ∃ ctx, prepareContext connection stakePool stakePoolAddress compareFn = .ok ctx ∧
      ¬ 0 < ((tieredCandidates ctx.accounts).foldl
        (selectStep stakePool ctx.minBalance skipFee) ⟨[], amount⟩).remainingAmount ∧
      plan = ((tieredCandidates ctx.accounts).foldl
        (selectStep stakePool ctx.minBalance skipFee) ⟨[], amount⟩).withdrawFrom := by
  unfold prepareWithdrawAccounts at h
  cases hc : prepareContext connection stakePool stakePoolAddress compareFn with
  | error e =>
    rw [hc, exceptBind_error] at h
    exact absurd h (by simp)
  | ok ctx =>
    rw [hc, exceptBind_ok] at h
    simp only [exceptPure] at h
    split_ifs at h with hrem
    refine ⟨ctx, rfl, hrem, ?_⟩
    injection h with h'
    exact h'.symm

/-- Unfolding of a successful prepareContext run. -/
theorem prepareContext_ok_elim {connection : Connection} {stakePool : StakePool}
    {stakePoolAddress : Pubkey} {compareFn : Option (Candidate → Candidate → ℤ)}
    {ctx : PrepareContext}
    (h : prepareContext connection stakePool stakePoolAddress compareFn = .ok ctx) :
    ∃ acc vl, connection.getAccountInfo stakePool.validatorList = some acc ∧
      ValidatorListLayout.decode acc.data = some vl ∧
      ctx.validators = vl.validators ∧
      ctx.minBalanceForRentExemption =
        connection.getMinimumBalanceForRentExemption stakeProgramSpace ∧
      ctx.minBalance = ctx.minBalanceForRentExemption + MINIMUM_ACTIVE_STAKE ∧
      ctx.accounts = preparedAccounts connection stakePool stakePoolAddress
        vl.validators compareFn ctx.minBalanceForRentExemption ctx.minBalance := by
  unfold prepareContext at h
  cases hacc : connection.getAccountInfo stakePool.validatorList with
  | none =>
    simp only [hacc, exceptBind_error] at h
    exact absurd h (by simp)
  | some acc =>
    cases hvl : ValidatorListLayout.decode acc.data with
    | none =>
      simp only [hacc, hvl, exceptBind_error] at h
      exact absurd h (by simp)
    | some vl =>
      simp only [hacc, hvl, exceptBind_ok, exceptPure] at h
      split_ifs at h
      injection h with h'
      exact ⟨acc, vl, rfl, hvl, by rw [← h'], by rw [← h'], by rw [← h'], by rw [← h']⟩

/-- tieredCandidates unfolded to the four tier filters. -/
theorem tieredCandidates_eq (accounts : List Candidate) :
    tieredCandidates accounts =
      (accounts.filter fun a => a.ctype = CandidateType.preferred) ++
      ((accounts.filter fun a => a.ctype = CandidateType.active) ++
       ((accounts.filter fun a => a.ctype = CandidateType.transient) ++
        (accounts.filter fun a => a.ctype = CandidateType.reserve))) := by
  simp [tieredCandidates]

/-- Claim C3: for every successful automatic withdrawal plan (with a
non-negative requested amount), the selected pool amounts sum exactly to
the request; the plan splits into four consecutive segments drawn from
the preferred, active, transient and reserve tiers in that fixed order;
whenever a transient entry was selected, every active candidate with
positive remaining capacity had already been consumed; and when the
total capacity over all tiers is below the request the whole operation
fails with an error and no plan. -/
theorem claim_C3_withdrawal_conservation :
    (∀ (connection : Connection) (stakePool : StakePool) (stakePoolAddress : Pubkey)
        (amount : ℚ) (compareFn : Option (Candidate → Candidate → ℤ)) (skipFee : Bool)
        (plan : List WithdrawAccount),
      0 ≤ amount →
      prepareWithdrawAccounts connection stakePool stakePoolAddress amount compareFn
        skipFee = .ok plan →
      sumPoolAmounts plan = amount ∧
      ∃ ctx p a t r,
        prepareContext connection stakePool stakePoolAddress compareFn = .ok ctx ∧
        plan = p ++ a ++ t ++ r ∧
        (∀ e ∈ p, ∃ c ∈ ctx.accounts, c.ctype = CandidateType.preferred ∧
          e.stakeAddress = c.stakeAddress ∧ e.voteAddress = c.voteAddress) ∧
        (∀ e ∈ a, ∃ c ∈ ctx.accounts, c.ctype = CandidateType.active ∧
          e.stakeAddress = c.stakeAddress ∧ e.voteAddress = c.voteAddress) ∧
        (∀ e ∈ t, ∃ c ∈ ctx.accounts, c.ctype = CandidateType.transient ∧
          e.stakeAddress = c.stakeAddress ∧ e.voteAddress = c.voteAddress) ∧
        (∀ e ∈ r, ∃ c ∈ ctx.accounts, c.ctype = CandidateType.reserve ∧
          e.stakeAddress = c.stakeAddress ∧ e.voteAddress = c.voteAddress) ∧
        (t ≠ [] → ∀ c ∈ ctx.accounts, c.ctype = CandidateType.active →
          0 < availableForWithdrawal stakePool skipFee c →
          ∃ e ∈ p ++ a, e.stakeAddress = c.stakeAddress ∧
            e.voteAddress = c.voteAddress)) ∧
    (∀ (connection : Connection) (stakePool : StakePool) (stakePoolAddress : Pubkey)
        (amount : ℚ) (compareFn : Option (Candidate → Candidate → ℤ)) (skipFee : Bool)
        (ctx : PrepareContext),
      prepareContext connection stakePool stakePoolAddress compareFn = .ok ctx →
      totalCapacity stakePool skipFee (tieredCandidates ctx.accounts) < amount →
      prepareWithdrawAccounts connection stakePool stakePoolAddress amount compareFn
        skipFee =
        .error "No stake accounts found in this pool with enough balance to withdraw") := by
  constructor
  · intro connection stakePool stakePoolAddress amount compareFn skipFee plan
      hamount h
    obtain ⟨ctx, hctx, hrem, hplan⟩ := prepareWithdrawAccounts_ok_elim h
    set step := selectStep stakePool ctx.minBalance skipFee with hstep
    set P := ctx.accounts.filter fun a => a.ctype = CandidateType.preferred with hP
    set A := ctx.accounts.filter fun a => a.ctype = CandidateType.active with hA
    set T := ctx.accounts.filter fun a => a.ctype = CandidateType.transient with hT
    set R := ctx.accounts.filter fun a => a.ctype = CandidateType.reserve with hR
    have hL : tieredCandidates ctx.accounts = P ++ (A ++ (T ++ R)) :=
      tieredCandidates_eq ctx.accounts
    set s0 : SelState := ⟨[], amount⟩ with hs0
    set s1 := P.foldl step s0 with hs1
    set s2 := A.foldl step s1 with hs2
    set s3 := T.foldl step s2 with hs3
    set s4 := R.foldl step s3 with hs4
    have hfold : (tieredCandidates ctx.accounts).foldl step s0 = s4 := by
      rw [hL, List.foldl_append, List.foldl_append, List.foldl_append]
    rw [hfold] at hrem hplan
    -- the invariant gives conservation
    have hinv := foldl_selectStep_invariant stakePool ctx.minBalance skipFee
      (tieredCandidates ctx.accounts) s0
    rw [hfold] at hinv
    have hnonneg := foldl_selectStep_remaining_nonneg stakePool ctx.minBalance skipFee
      (tieredCandidates ctx.accounts) s0 hamount
    rw [hfold] at hnonneg
    have hzero : s4.remainingAmount = 0 := le_antisymm (not_lt.mp hrem) hnonneg
    have hsum : sumPoolAmounts plan = amount := by
      rw [hplan]
      have : s4.remainingAmount + sumPoolAmounts s4.withdrawFrom =
          amount + sumPoolAmounts ([] : List WithdrawAccount) := hinv
      simp [sumPoolAmounts] at this
      rw [hzero] at this
      simpa [sumPoolAmounts] using this
    refine ⟨hsum, ?_⟩
    -- segment decomposition
    obtain ⟨p, hp, hpe⟩ := foldl_selectStep_withdrawFrom stakePool ctx.minBalance skipFee P s0
    obtain ⟨a, ha, hae⟩ := foldl_selectStep_withdrawFrom stakePool ctx.minBalance skipFee A s1
    obtain ⟨t, ht, hte⟩ := foldl_selectStep_withdrawFrom stakePool ctx.minBalance skipFee T s2
    obtain ⟨r, hr, hre⟩ := foldl_selectStep_withdrawFrom stakePool ctx.minBalance skipFee R s3
    rw [← hs1] at hp
    rw [← hs2] at ha
    rw [← hs3] at ht
    rw [← hs4] at hr
    have hwf : s4.withdrawFrom = p ++ a ++ t ++ r := by
      rw [hr, ht, ha, hp]
      simp [hs0]
    have hmemP : ∀ e ∈ p, ∃ c ∈ ctx.accounts, c.ctype = CandidateType.preferred ∧
        e.stakeAddress = c.stakeAddress ∧ e.voteAddress = c.voteAddress := by
      intro e he
      obtain ⟨c, hc, h1, h2⟩ := hpe e he
      have := List.mem_filter.mp (hP ▸ hc)
      exact ⟨c, this.1, by simpa using this.2, h1, h2⟩
    have hmemA : ∀ e ∈ a, ∃ c ∈ ctx.accounts, c.ctype = CandidateType.active ∧
        e.stakeAddress = c.stakeAddress ∧ e.voteAddress = c.voteAddress := by
      intro e he
      obtain ⟨c, hc, h1, h2⟩ := hae e he
      have := List.mem_filter.mp (hA ▸ hc)
      exact ⟨c, this.1, by simpa using this.2, h1, h2⟩
    have hmemT : ∀ e ∈ t, ∃ c ∈ ctx.accounts, c.ctype = CandidateType.transient ∧
        e.stakeAddress = c.stakeAddress ∧ e.voteAddress = c.voteAddress := by
      intro e he
      obtain ⟨c, hc, h1, h2⟩ := hte e he
      have := List.mem_filter.mp (hT ▸ hc)
      exact ⟨c, this.1, by simpa using this.2, h1, h2⟩
    have hmemR : ∀ e ∈ r, ∃ c ∈ ctx.accounts, c.ctype = CandidateType.reserve ∧
        e.stakeAddress = c.stakeAddress ∧ e.voteAddress = c.voteAddress := by
      intro e he
      obtain ⟨c, hc, h1, h2⟩ := hre e he
      have := List.mem_filter.mp (hR ▸ hc)
      exact ⟨c, this.1, by simpa using this.2, h1, h2⟩
    refine ⟨ctx, p, a, t, r, hctx, by rw [hplan, hwf], hmemP, hmemA, hmemT, hmemR, ?_⟩
    -- active coverage before any transient consumption
    intro htne c hc hct hcap
    have hs2pos : 0 < s2.remainingAmount := by
      rcases lt_or_le 0 s2.remainingAmount with hgt | hle
      · exact hgt
      · exfalso
        have hz : s2.remainingAmount = 0 := by
          have h0 : 0 ≤ s2.remainingAmount := by
            have := foldl_selectStep_remaining_nonneg stakePool ctx.minBalance skipFee
              (P ++ A) s0 hamount
            rwa [List.foldl_append, ← hs1, ← hs2] at this
          linarith
        have : s3 = s2 := by
          rw [hs3]
          exact foldl_selectStep_zero stakePool ctx.minBalance skipFee T s2 hz
        rw [this] at ht
        have : t = [] := by
          have := ht.symm
          rwa [List.append_right_eq_self] at this
        exact htne this
    have hcov := foldl_selectStep_coverage stakePool ctx.minBalance skipFee A s1
      (by rwa [← hs2]) c
      (List.mem_filter.mpr ⟨hc, by simp [hct]⟩)
      (by
        intro hcon
        rw [hct] at hcon
        exact absurd hcon.2 (by simp))
      hcap
    obtain ⟨e, he, he1, he2⟩ := hcov
    rw [← hs2, ha, hp] at he
    simp only [hs0] at he
    refine ⟨e, ?_, he1, he2⟩
    simpa using he
  · intro connection stakePool stakePoolAddress amount compareFn skipFee ctx hctx hcap
    unfold prepareWithdrawAccounts
    rw [hctx, exceptBind_ok]
    rw [if_pos]
    have hbound := foldl_selectStep_capacity stakePool ctx.minBalance skipFee
      (tieredCandidates ctx.accounts) ⟨[], amount⟩
    simp only at hbound
    linarith

/-- On the zero pool (zero fees, zero supply), a candidate's withdrawal
capacity is exactly its lamport balance. -/
theorem availableForWithdrawal_zeroPool (skipFee : Bool) (c : Candidate) :
    availableForWithdrawal zeroPool skipFee c = (c.lamports : ℚ) := by
  simp [availableForWithdrawal, zeroPool, calcPoolTokensForDeposit]

/-- A pushing selection step in explicit form: an active candidate with
positive capacity is consumed while the remainder is positive. -/
theorem selectStep_active_push (sp : StakePool) (mb : Nat) (skipFee : Bool)
    (st : SelState) (c : Candidate) (q rem : ℚ)
    (hct : c.ctype = CandidateType.active) (hrem : 0 < st.remainingAmount)
    (hcap : 0 < availableForWithdrawal sp skipFee c)
    (hq : min (availableForWithdrawal sp skipFee c) st.remainingAmount = q)
    (hrem2 : st.remainingAmount - q = rem) :
    selectStep sp mb skipFee st c =
      ⟨st.withdrawFrom ++
        [{ stakeAddress := c.stakeAddress, voteAddress := c.voteAddress, poolAmount := q }],
        rem⟩ := by
  have hpa : ¬ min (availableForWithdrawal sp skipFee c) st.remainingAmount ≤ 0 :=
    not_le.mpr (lt_min hcap hrem)
  have hguard : ¬(c.lamports ≤ (mb : ℤ) ∧ c.ctype = CandidateType.transient) := by
    intro hcon
    rw [hct] at hcon
    exact absurd hcon.2 (by simp)
  simp only [selectStep]
  rw [if_neg hrem.ne', if_neg hguard, if_neg hpa, hq, hrem2]

/-- The fixture tier walk in explicit list form. -/
theorem eval_tiered7 :
    tieredCandidates ctx7.accounts =
      [{ ctype := CandidateType.active, voteAddress := some 1, stakeAddress := findStakeProgramAddress STAKE_POOL_PROGRAM_ID 1 42, lamports := 7 },
       { ctype := CandidateType.active, voteAddress := some 2, stakeAddress := findStakeProgramAddress STAKE_POOL_PROGRAM_ID 2 42, lamports := 6 },
       { ctype := CandidateType.active, voteAddress := some 3, stakeAddress := findStakeProgramAddress STAKE_POOL_PROGRAM_ID 3 42, lamports := 5 },
       { ctype := CandidateType.active, voteAddress := some 4, stakeAddress := findStakeProgramAddress STAKE_POOL_PROGRAM_ID 4 42, lamports := 4 },
       { ctype := CandidateType.active, voteAddress := some 5, stakeAddress := findStakeProgramAddress STAKE_POOL_PROGRAM_ID 5 42, lamports := 3 },
       { ctype := CandidateType.active, voteAddress := some 6, stakeAddress := findStakeProgramAddress STAKE_POOL_PROGRAM_ID 6 42, lamports := 2 },
       { ctype := CandidateType.active, voteAddress := some 7, stakeAddress := findStakeProgramAddress STAKE_POOL_PROGRAM_ID 7 42, lamports := 1 }] := by
  decide

/-- The fixture plan in explicit list form. -/
theorem eval_plan7 :
    plan7 =
      [{ stakeAddress := findStakeProgramAddress STAKE_POOL_PROGRAM_ID 1 42, voteAddress := some 1, poolAmount := 7 },
       { stakeAddress := findStakeProgramAddress STAKE_POOL_PROGRAM_ID 2 42, voteAddress := some 2, poolAmount := 6 },
       { stakeAddress := findStakeProgramAddress STAKE_POOL_PROGRAM_ID 3 42, voteAddress := some 3, poolAmount := 5 },
       { stakeAddress := findStakeProgramAddress STAKE_POOL_PROGRAM_ID 4 42, voteAddress := some 4, poolAmount := 4 },
       { stakeAddress := findStakeProgramAddress STAKE_POOL_PROGRAM_ID 5 42, voteAddress := some 5, poolAmount := 3 },
       { stakeAddress := findStakeProgramAddress STAKE_POOL_PROGRAM_ID 6 42, voteAddress := some 6, poolAmount := 2 },
       { stakeAddress := findStakeProgramAddress STAKE_POOL_PROGRAM_ID 7 42, voteAddress := some 7, poolAmount := 1 }] := by
  simp only [plan7, List.range_succ, List.range_zero, List.map_append, List.map_cons,
    List.map_nil, List.nil_append, List.cons_append, List.append_assoc]
  norm_num

/-- The greedy walk on the fixture consumes the seven candidates into
the seven plan entries, ending with a zero remainder. -/
theorem eval_fold28 :
    (tieredCandidates ctx7.accounts).foldl
      (selectStep zeroPool ctx7.minBalance false) ⟨[], 28⟩ = ⟨plan7, 0⟩ := by
  rw [eval_tiered7, eval_plan7]
  rw [List.foldl_cons, selectStep_active_push zeroPool ctx7.minBalance false _ _ 7 21 rfl
    (by norm_num) (by rw [availableForWithdrawal_zeroPool]; norm_num)
    (by rw [availableForWithdrawal_zeroPool]; norm_num [min_def])
    (by norm_num)]
  rw [List.foldl_cons, selectStep_active_push zeroPool ctx7.minBalance false _ _ 6 15 rfl
    (by norm_num) (by rw [availableForWithdrawal_zeroPool]; norm_num)
    (by rw [availableForWithdrawal_zeroPool]; norm_num [min_def])
    (by norm_num)]
  rw [List.foldl_cons, selectStep_active_push zeroPool ctx7.minBalance false _ _ 5 10 rfl
    (by norm_num) (by rw [availableForWithdrawal_zeroPool]; norm_num)
    (by rw [availableForWithdrawal_zeroPool]; norm_num [min_def])
    (by norm_num)]
  rw [List.foldl_cons, selectStep_active_push zeroPool ctx7.minBalance false _ _ 4 6 rfl
    (by norm_num) (by rw [availableForWithdrawal_zeroPool]; norm_num)
    (by rw [availableForWithdrawal_zeroPool]; norm_num [min_def])
    (by norm_num)]
  rw [List.foldl_cons, selectStep_active_push zeroPool ctx7.minBalance false _ _ 3 3 rfl
    (by norm_num) (by rw [availableForWithdrawal_zeroPool]; norm_num)
    (by rw [availableForWithdrawal_zeroPool]; norm_num [min_def])
    (by norm_num)]
  rw [List.foldl_cons, selectStep_active_push zeroPool ctx7.minBalance false _ _ 2 1 rfl
    (by norm_num) (by rw [availableForWithdrawal_zeroPool]; norm_num)
    (by rw [availableForWithdrawal_zeroPool]; norm_num [min_def])
    (by norm_num)]
  rw [List.foldl_cons, selectStep_active_push zeroPool ctx7.minBalance false _ _ 1 0 rfl
    (by norm_num) (by rw [availableForWithdrawal_zeroPool]; norm_num)
    (by rw [availableForWithdrawal_zeroPool]; norm_num [min_def])
    (by norm_num)]
  rw [List.foldl_nil]
  simp

/-- prepareWithdrawAccounts on the fixture: the 28-token request yields
exactly the seven-entry plan. -/
theorem eval_prepare28 :
    prepareWithdrawAccounts conn7 zeroPool 42 28 none false = .ok plan7 := by
  unfold prepareWithdrawAccounts
  rw [show prepareContext conn7 zeroPool 42 none = .ok ctx7 from by decide, exceptBind_ok]
  rw [eval_fold28]
  rw [if_neg (by norm_num)]
  rfl

/-- The fixture total capacity across the tiers is 28 pool tokens. -/
theorem eval_capacity7 :
    totalCapacity zeroPool false (tieredCandidates ctx7.accounts) = 28 := by
  rw [eval_tiered7]
  simp only [totalCapacity, candidateCapacity, List.map_cons, List.map_nil,
    List.sum_cons, List.sum_nil, availableForWithdrawal_zeroPool]
  norm_num

/-- Witness for C3: on the seven-validator fixture a 28-token request
succeeds with a plan summing to exactly 28, and a 1000-token request
(beyond the 28 tokens of total capacity) fails with the named error. -/
theorem claim_C3_witness :
    prepareWithdrawAccounts conn7 zeroPool 42 28 none false = .ok plan7 ∧
    sumPoolAmounts plan7 = 28 ∧
    prepareWithdrawAccounts conn7 zeroPool 42 1000 none false =
      .error "No stake accounts found in this pool with enough balance to withdraw" := by
  refine ⟨eval_prepare28, ?_, ?_⟩
  · exact (claim_C3_withdrawal_conservation.1 conn7 zeroPool 42 28 none false plan7
      (by norm_num) eval_prepare28).1
  · exact claim_C3_withdrawal_conservation.2 conn7 zeroPool 42 1000 none false ctx7
      (by decide) (by rw [eval_capacity7]; norm_num)

/-- Membership through stable insertion. -/
theorem mem_insertLe {α : Type} (le : α → α → Bool) (x y : α) (l : List α) :
    y ∈ insertLe le x l ↔ y = x ∨ y ∈ l := by
  induction l with
  | nil => simp [insertLe]
  | cons z zs ih =>
    simp only [insertLe]
    split_ifs
    · simp [or_comm, or_left_comm]
    · simp [ih, or_comm, or_left_comm]

/-- Membership is preserved by the sort model. -/
theorem mem_sortByComparator {α : Type} (le : α → α → Bool) (x : α) (l : List α) :
    x ∈ sortByComparator le l ↔ x ∈ l := by
  induction l with
  | nil => simp [sortByComparator]
  | cons z zs ih =>
    simp only [sortByComparator]
    rw [mem_insertLe, ih]
    simp

/-- Every candidate built from the validator list comes from an Active
validator and carries that validator's vote address. -/
theorem candidatesOfValidators_mem {stakePool : StakePool} {stakePoolAddress : Pubkey}
    {validators : List ValidatorStakeInfo} {minBalance : Nat} {c : Candidate}
    (hc : c ∈ candidatesOfValidators stakePool stakePoolAddress validators minBalance) :
    ∃ v ∈ validators, v.status = ValidatorStakeInfoStatus.Active ∧
      c.voteAddress = some v.voteAccountAddress := by
  unfold candidatesOfValidators at hc
  obtain ⟨v, hv, hcin⟩ := List.mem_flatMap.mp hc
  refine ⟨v, hv, ?_⟩
  by_cases hst : v.status ≠ ValidatorStakeInfoStatus.Active
  · rw [if_pos hst] at hcin
    exact absurd hcin (List.not_mem_nil c)
  · rw [if_neg hst] at hcin
    refine ⟨not_not.mp hst, ?_⟩
    rcases List.mem_append.mp hcin with h1 | h2
    · split_ifs at h1 with hz
      · rcases List.mem_singleton.mp h1 with rfl
        rfl
      · exact absurd h1 (List.not_mem_nil c)
    · split_ifs at h2 with hz
      · rcases List.mem_singleton.mp h2 with rfl
        rfl
      · exact absurd h2 (List.not_mem_nil c)

/-- Every prepared candidate is either the reserve entry or comes from an
Active validator. -/
theorem preparedAccounts_mem {connection : Connection} {stakePool : StakePool}
    {stakePoolAddress : Pubkey} {validators : List ValidatorStakeInfo}
    {compareFn : Option (Candidate → Candidate → ℤ)} {m1 m2 : Nat} {c : Candidate}
    (hc : c ∈ preparedAccounts connection stakePool stakePoolAddress validators
      compareFn m1 m2) :
    (c.stakeAddress = stakePool.reserveStake ∧ c.voteAddress = none) ∨
      ∃ v ∈ validators, v.status = ValidatorStakeInfoStatus.Active ∧
        c.voteAddress = some v.voteAccountAddress := by
  simp only [preparedAccounts] at hc
  split_ifs at hc with hres
  · rcases List.mem_append.mp hc with h1 | h2
    · exact Or.inr (candidatesOfValidators_mem
        ((mem_sortByComparator _ _ _).mp h1))
    · rcases List.mem_singleton.mp h2 with rfl
      exact Or.inl ⟨rfl, rfl⟩
  · exact Or.inr (candidatesOfValidators_mem
      ((mem_sortByComparator _ _ _).mp hc))

/-- The tier walk only re-filters the prepared candidates. -/
theorem tieredCandidates_subset {accounts : List Candidate} {c : Candidate}
    (hc : c ∈ tieredCandidates accounts) : c ∈ accounts := by
  unfold tieredCandidates at hc
  obtain ⟨t, _, hcin⟩ := List.mem_flatMap.mp hc
  exact (List.mem_filter.mp hcin).1

/-- Claim C9: in automatic withdrawal selection, every entry of a
successful plan is either the pool reserve or is attributed to a
validator whose status is Active; validators in any other status
contribute neither their active nor their transient balances. -/
theorem claim_C9_inactive_validators_excluded
    (connection : Connection) (stakePool : StakePool) (stakePoolAddress : Pubkey)
    (amount : ℚ) (compareFn : Option (Candidate → Candidate → ℤ)) (skipFee : Bool)
    (ctx : PrepareContext) (plan : List WithdrawAccount)
    (hctx : prepareContext connection stakePool stakePoolAddress compareFn = .ok ctx)
    (h : prepareWithdrawAccounts connection stakePool stakePoolAddress amount compareFn
      skipFee = .ok plan) :
    ∀ e ∈ plan, e.stakeAddress = stakePool.reserveStake ∨
      ∃ v ∈ ctx.validators, v.status = ValidatorStakeInfoStatus.Active ∧
        e.voteAddress = some v.voteAccountAddress := by
  obtain ⟨ctx', hctx', hrem, hplan⟩ := prepareWithdrawAccounts_ok_elim h
  rw [hctx] at hctx'
  injection hctx' with hctxEq
  subst hctxEq
  obtain ⟨acc, vl, hacc, hvl, hvals, hm1, hm2, haccounts⟩ := prepareContext_ok_elim hctx
  intro e he
  rw [hplan] at he
  obtain ⟨t, ht, hte⟩ := foldl_selectStep_withdrawFrom stakePool ctx.minBalance skipFee
    (tieredCandidates ctx.accounts) ⟨[], amount⟩
  rw [ht] at he
  simp only [List.nil_append] at he
  obtain ⟨c, hcmem, hces, hcev⟩ := hte e he
  have hcacc : c ∈ ctx.accounts := tieredCandidates_subset hcmem
  rw [haccounts] at hcacc
  rcases preparedAccounts_mem hcacc with ⟨h1, _⟩ | ⟨v, hv, hvact, hcv⟩
  · exact Or.inl (hces.trans h1)
  · exact Or.inr ⟨v, by rw [hvals]; exact hv, hvact, hcev.trans hcv⟩

/-- Witness for C9: on the seven-validator fixture, the first entry of
the computed plan is attributed to an Active validator of the list. -/
theorem claim_C9_witness :
    ({ stakeAddress := findStakeProgramAddress STAKE_POOL_PROGRAM_ID 1 42,
       voteAddress := some 1, poolAmount := 7 } : WithdrawAccount).stakeAddress =
        zeroPool.reserveStake ∨
      ∃ v ∈ ctx7.validators, v.status = ValidatorStakeInfoStatus.Active ∧
        ({ stakeAddress := findStakeProgramAddress STAKE_POOL_PROGRAM_ID 1 42,
           voteAddress := some 1, poolAmount := 7 } : WithdrawAccount).voteAddress =
          some v.voteAccountAddress :=
  claim_C9_inactive_validators_excluded conn7 zeroPool 42 28 none false ctx7 plan7
    (by decide) eval_prepare28 _ (by rw [eval_plan7]; exact List.mem_cons_self _ _)

/-- Map on a successful Except value applies the function. -/
theorem exceptMap_ok {ε α β : Type} (f : α → β) (a : α) :
    (Except.ok a : Except ε α).map f = Except.ok (f a) := rfl

/-- Map on a failed Except value propagates the error. -/
theorem exceptMap_error {ε α β : Type} (f : α → β) (e : ε) :
    (Except.error e : Except ε α).map f = Except.error e := rfl

/-- withdrawStakePlanParts on the fixture for the 28-lamport request:
the plan carries all seven entries. -/
theorem eval_planParts28 :
    withdrawStakePlanParts conn7 42 43 amount28 = .ok parts7 := by
  have hsol : solToLamports amount28 = 28 := by with_unfolding_all decide
  have hsp : getStakePoolAccount conn7 42 = .ok spAcct7 := by decide
  have hdata : spAcct7.data = zeroPool := rfl
  have hC : ∀ p, conn7.getTokenAccountAmount p = some 1000 := fun _ => rfl
  have hR : conn7.getMinimumBalanceForRentExemption stakeProgramSpace = 0 := rfl
  unfold withdrawStakePlanParts
  rw [hsp, exceptBind_ok]
  simp only [hsol, hdata, Option.getD, hC, hR, exceptBind_ok, exceptBind_error, exceptPure]
  rw [if_neg (by norm_num : ¬ ((1000 : Nat) : ℚ) < 28)]
  rw [if_neg (by simp : ¬ false = true), if_neg (by simp : ¬ false = true)]
  rw [show decide (getAssociatedTokenAddressSync zeroPool.poolMint 43 =
    zeroPool.managerFeeAccount) = false from by decide]
  rw [eval_prepare28, exceptBind_ok]
  rfl

/-- Counting withdraw instructions distributes over append. -/
theorem countWithdrawStakeIxs_append (l1 l2 : List HighLevelIx) :
    countWithdrawStakeIxs (l1 ++ l2) =
      countWithdrawStakeIxs l1 + countWithdrawStakeIxs l2 := by
  simp [countWithdrawStakeIxs, List.filter_append]

/-- The capped instruction loop pushes at most 6 - i withdraw-stake
instructions when entered with counter i (the break fires once the
counter exceeds 5, after six processed entries). -/
theorem withdrawStakeLoop_count_le (env : WithdrawLoopEnv) :
    ∀ (l : List WithdrawAccount) (i k : Nat),
      countWithdrawStakeIxs (withdrawStakeLoop env l i k).1 ≤ 6 - i
  | [], i, k => by
    simp [withdrawStakeLoop, countWithdrawStakeIxs]
  | wa :: rest, i, k => by
    simp only [withdrawStakeLoop]
    split_ifs with hbreak hmk
    · simp [countWithdrawStakeIxs]
    · have hrec := withdrawStakeLoop_count_le env rest (i + 1) (k + 1)
      rw [countWithdrawStakeIxs_append]
      simp only [countWithdrawStakeIxs, List.filter, List.length_cons,
        List.length_nil] at hrec ⊢
      omega
    · have hrec := withdrawStakeLoop_count_le env rest (i + 1) k
      rw [countWithdrawStakeIxs_append]
      simp only [countWithdrawStakeIxs, List.filter, List.length_cons,
        List.length_nil] at hrec ⊢
      omega

/-- The assembled result carries at most 6 withdraw-stake instructions
(the leading approve instruction is not a withdrawal). -/
theorem assembleWithdrawStake_count_le (freshKeys : Nat → Pubkey)
    (stakePoolAddress tokenOwner : Pubkey) (stakeReceiver : Option Pubkey)
    (parts : WithdrawPlanParts) :
    countWithdrawStakeIxs
      (assembleWithdrawStake freshKeys stakePoolAddress tokenOwner stakeReceiver
        parts).instructions ≤ 6 := by
  simp only [assembleWithdrawStake]
  have := withdrawStakeLoop_count_le
    { stakePoolAddress, validatorList := parts.stakePool.data.validatorList,
      managerFeeAccount := parts.stakePool.data.managerFeeAccount,
      poolMint := parts.stakePool.data.poolMint,
      withdrawAuthority := findWithdrawAuthorityProgramAddress STAKE_POOL_PROGRAM_ID
        stakePoolAddress,
      tokenOwner, poolTokenAccount := parts.poolTokenAccount,
      userTransferAuthority := freshKeys 0, stakeReceiver,
      receiverDelegated :=
        match parts.stakeReceiverAccount with
        | some sra => sra.type = StakeAccountType.delegated
        | none => false,
      stakeAccountRentExemption := parts.stakeAccountRentExemption, freshKeys }
    parts.withdrawAccounts 0 1
  simp only [countWithdrawStakeIxs, List.filter] at this ⊢
  omega

/-- Claim C2 (amended): withdrawStake never emits more than 6 withdrawal
instructions in one call - the loop counter starts at zero and only
breaks once it exceeds 5, so up to six plan entries are processed, and
any further entries are silently dropped rather than reported through a
CapacityExceeded error; no plan is ever rejected for needing too many
source accounts. -/
theorem claim_C2_amended_withdraw_cap_six
    (connection : Connection) (freshKeys : Nat → Pubkey)
    (stakePoolAddress tokenOwner : Pubkey) (amount : JsNumber) (useReserve : Bool)
    (voteAccountAddress stakeReceiver poolTokenAccountArg : Option Pubkey)
    (validatorComparator : Option (Candidate → Candidate → ℤ))
    (res : WithdrawStakeResult)
    (h : withdrawStake connection freshKeys stakePoolAddress tokenOwner amount useReserve
      voteAccountAddress stakeReceiver poolTokenAccountArg validatorComparator = .ok res) :
    countWithdrawStakeIxs res.instructions ≤ 6 := by
  unfold withdrawStake at h
  cases hp : withdrawStakePlanParts connection stakePoolAddress tokenOwner amount useReserve
      voteAccountAddress stakeReceiver poolTokenAccountArg validatorComparator with
  | error e =>
    rw [hp, exceptMap_error] at h
    exact absurd h (by simp)
  | ok parts =>
    rw [hp, exceptMap_ok] at h
    injection h with h'
    rw [← h']
    exact assembleWithdrawStake_count_le freshKeys stakePoolAddress tokenOwner
      stakeReceiver parts

/-- Counterexample for C2: on the seven-validator fixture the
28-lamport withdrawal has a seven-account plan; withdrawStake succeeds
(no CapacityExceeded error is raised), silently drops the seventh entry,
and emits six withdrawal instructions - one more than the claimed cap of
five. -/
theorem claim_C2_counterexample :
    withdrawStake conn7 freshKeys0 42 43 amount28 =
      .ok (assembleWithdrawStake freshKeys0 42 43 none parts7) ∧
    parts7.withdrawAccounts.length = 7 ∧
    countWithdrawStakeIxs
      (assembleWithdrawStake freshKeys0 42 43 none parts7).instructions = 6 := by
  refine ⟨?_, by decide, by decide⟩
  unfold withdrawStake
  rw [eval_planParts28, exceptMap_ok]

/-- Witness for the amended C2: the amended bound applied to the fixture
run, whose six emitted withdrawal instructions meet the bound. -/
theorem claim_C2_witness :
    countWithdrawStakeIxs
      (assembleWithdrawStake freshKeys0 42 43 none parts7).instructions ≤ 6 :=
  claim_C2_amended_withdraw_cap_six conn7 freshKeys0 42 43 amount28 false none none
    none none (assembleWithdrawStake freshKeys0 42 43 none parts7)
    (by unfold withdrawStake; rw [eval_planParts28, exceptMap_ok])

/-- Claim C4: for a registered validator, increaseValidatorStake and
decreaseValidatorStake with no ephemeral seed derive the transient stake
address with the validator's transientSeedSuffixStart plus one and build
the simple instruction variant; with an ephemeral seed they reuse
transientSeedSuffixStart unchanged and build the additional variant that
also carries the derived ephemeral-stake account; and the transient
address derived with seed 1 differs from the one derived with seed 0. -/
theorem claim_C4_transient_seed_selection :
    (∀ (connection : Connection) (stakePoolAddress validatorVote : Pubkey) (lamports : Nat)
        (sp : StakePoolAccount) (vl : ValidatorListAccount) (v : ValidatorStakeInfo),
      getStakePoolAccount connection stakePoolAddress = .ok sp →
      getValidatorListAccount connection sp.data.validatorList = .ok vl →
      vl.data.validators.find? (·.voteAccountAddress = validatorVote) = some v →
      (increaseValidatorStake connection stakePoolAddress validatorVote lamports none =
        .ok [StakePoolInstruction.increaseValidatorStake
          { stakePool := stakePoolAddress, staker := sp.data.staker,
            validatorList := sp.data.validatorList, reserveStake := sp.data.reserveStake,
            transientStakeSeed := v.transientSeedSuffixStart + 1,
            withdrawAuthority := findWithdrawAuthorityProgramAddress STAKE_POOL_PROGRAM_ID
              stakePoolAddress,
            transientStake := findTransientStakeProgramAddress STAKE_POOL_PROGRAM_ID
              v.voteAccountAddress stakePoolAddress (v.transientSeedSuffixStart + 1),
            validatorStake := findStakeProgramAddress STAKE_POOL_PROGRAM_ID
              v.voteAccountAddress stakePoolAddress,
            validatorVote := validatorVote, lamports := lamports }]) ∧
      (∀ seed, increaseValidatorStake connection stakePoolAddress validatorVote lamports
          (some seed) =
        .ok [StakePoolInstruction.increaseAdditionalValidatorStake
          { stakePool := stakePoolAddress, staker := sp.data.staker,
            validatorList := sp.data.validatorList, reserveStake := sp.data.reserveStake,
            transientStakeSeed := v.transientSeedSuffixStart,
            withdrawAuthority := findWithdrawAuthorityProgramAddress STAKE_POOL_PROGRAM_ID
              stakePoolAddress,
            transientStake := findTransientStakeProgramAddress STAKE_POOL_PROGRAM_ID
              v.voteAccountAddress stakePoolAddress v.transientSeedSuffixStart,
            validatorStake := findStakeProgramAddress STAKE_POOL_PROGRAM_ID
              v.voteAccountAddress stakePoolAddress,
            validatorVote := validatorVote, lamports := lamports }
          (findEphemeralStakeProgramAddress STAKE_POOL_PROGRAM_ID stakePoolAddress seed)
          seed]) ∧
      (decreaseValidatorStake connection stakePoolAddress validatorVote lamports none =
        .ok [StakePoolInstruction.decreaseValidatorStakeWithReserve
          { stakePool := stakePoolAddress, staker := sp.data.staker,
            validatorList := sp.data.validatorList, reserveStake := sp.data.reserveStake,
            transientStakeSeed := v.transientSeedSuffixStart + 1,
            withdrawAuthority := findWithdrawAuthorityProgramAddress STAKE_POOL_PROGRAM_ID
              stakePoolAddress,
            validatorStake := findStakeProgramAddress STAKE_POOL_PROGRAM_ID
              v.voteAccountAddress stakePoolAddress,
            transientStake := findTransientStakeProgramAddress STAKE_POOL_PROGRAM_ID
              v.voteAccountAddress stakePoolAddress (v.transientSeedSuffixStart + 1),
            lamports := lamports }]) ∧
      (∀ seed, decreaseValidatorStake connection stakePoolAddress validatorVote lamports
          (some seed) =
        .ok [StakePoolInstruction.decreaseAdditionalValidatorStake
          { stakePool := stakePoolAddress, staker := sp.data.staker,
            validatorList := sp.data.validatorList, reserveStake := sp.data.reserveStake,
            transientStakeSeed := v.transientSeedSuffixStart,
            withdrawAuthority := findWithdrawAuthorityProgramAddress STAKE_POOL_PROGRAM_ID
              stakePoolAddress,
            validatorStake := findStakeProgramAddress STAKE_POOL_PROGRAM_ID
              v.voteAccountAddress stakePoolAddress,
            transientStake := findTransientStakeProgramAddress STAKE_POOL_PROGRAM_ID
              v.voteAccountAddress stakePoolAddress v.transientSeedSuffixStart,
            lamports := lamports }
          (findEphemeralStakeProgramAddress STAKE_POOL_PROGRAM_ID stakePoolAddress seed)
          seed])) ∧
    (∀ programId voteAccountAddress stakePoolAddress : Pubkey,
      findTransientStakeProgramAddress programId voteAccountAddress stakePoolAddress 1 ≠
        findTransientStakeProgramAddress programId voteAccountAddress stakePoolAddress 0) := by
  constructor
  · intro connection stakePoolAddress validatorVote lamports sp vl v hsp hvl hfind
    refine ⟨?_, fun seed => ?_, ?_, fun seed => ?_⟩
    · unfold increaseValidatorStake
      rw [hsp, exceptBind_ok, hvl, exceptBind_ok]
      simp only [hfind, exceptBind_ok, exceptPure]
    · unfold increaseValidatorStake
      rw [hsp, exceptBind_ok, hvl, exceptBind_ok]
      simp only [hfind, exceptBind_ok, exceptPure]
    · unfold decreaseValidatorStake
      rw [hsp, exceptBind_ok, hvl, exceptBind_ok]
      simp only [hfind, exceptBind_ok, exceptPure]
    · unfold decreaseValidatorStake
      rw [hsp, exceptBind_ok, hvl, exceptBind_ok]
      simp only [hfind, exceptBind_ok, exceptPure]
  · intro programId voteAccountAddress stakePoolAddress h
    unfold findTransientStakeProgramAddress findProgramAddress at h
    simp only [List.foldl_cons, List.foldl_nil] at h
    have h1 := (Nat.pair_eq_pair.mp h).1
    have h2 := (Nat.pair_eq_pair.mp h1).2
    exact absurd h2 (by decide)

/-- Witness for C4: the fixture validator with transientSeedSuffixStart
zero and no ephemeral seed gets the simple instruction with the transient
address derived from seed 1, and that address is distinct from the
seed-0 derivation. -/
theorem claim_C4_witness :
    increaseValidatorStake conn7 42 1 500 none =
      .ok [StakePoolInstruction.increaseValidatorStake
        { stakePool := 42, staker := 0, validatorList := 0, reserveStake := 0,
          transientStakeSeed := 1,
          withdrawAuthority := findWithdrawAuthorityProgramAddress STAKE_POOL_PROGRAM_ID 42,
          transientStake := findTransientStakeProgramAddress STAKE_POOL_PROGRAM_ID 1 42 1,
          validatorStake := findStakeProgramAddress STAKE_POOL_PROGRAM_ID 1 42,
          validatorVote := 1, lamports := 500 }] ∧
    findTransientStakeProgramAddress STAKE_POOL_PROGRAM_ID 1 42 1 ≠
      findTransientStakeProgramAddress STAKE_POOL_PROGRAM_ID 1 42 0 :=
  ⟨(claim_C4_transient_seed_selection.1 conn7 42 1 500 spAcct7 vlAcct7
      { activeStakeLamports := 7, transientStakeLamports := 0, lastUpdateEpoch := 0,
        transientSeedSuffixStart := 0, transientSeedSuffixEnd := 0, status := 0,
        voteAccountAddress := 1 }
      (by decide) (by decide) (by decide)).1,
    claim_C4_transient_seed_selection.2 STAKE_POOL_PROGRAM_ID 1 42⟩

/-- Claim C1 (code bug): getStakePoolAccount does not fetch the account
stored at its address argument.  On a ledger with a valid stake-pool
account at address 42 and nothing at the hard-coded address, the fetch
fails with the not-found error although a decodable account sits at 42;
conversely on a ledger with nothing at 42 but a pool image at the
hard-coded address, the fetch succeeds and returns that image labelled
with pubkey 42. -/
theorem claim_C1_fetch_ignores_address :
    getStakePoolAccount connAt42 42 = .error "Invalid stake pool account" ∧
    connAt42.getAccountInfo 42 = some poolAccountInfo ∧
    StakePoolLayout.decode poolAccountInfo.data = some zeroPool ∧
    (42 : Pubkey) ≠ hardcodedFetchAddress ∧
    getStakePoolAccount conn7 42 = .ok spAcct7 ∧
    conn7.getAccountInfo 42 = none := by
  refine ⟨by decide, by decide, by decide, by decide, by decide, by decide⟩

/-- Claim C6 (code bug): the instruction decoders check the target
program id against StakeProgram.programId rather than the stake-pool
program id, while the builders emit STAKE_POOL_PROGRAM_ID, so the
decoders reject every instruction the library itself builds. -/
theorem claim_C6_decoder_rejects_own_builder :
    decodeDepositStake (StakePoolInstruction.depositStake depositStakeParams0) =
      .error "Invalid instruction; programId is not StakeProgram" ∧
    (StakePoolInstruction.depositStake depositStakeParams0).programId =
      STAKE_POOL_PROGRAM_ID ∧
    STAKE_POOL_PROGRAM_ID ≠ stakeProgramId ∧
    decodeDepositSol (StakePoolInstruction.depositSol depositSolParams0) =
      .error "Invalid instruction; programId is not StakeProgram" := by
  refine ⟨by decide, rfl, by decide, by decide⟩

/-- Counterexample for C5: with an empty ledger and a 33-byte name,
createPoolTokenMetadata fails with the account-fetch error rather than
the name-length validation error, so the length validation cannot
precede the network fetch. -/
theorem claim_C5_counterexample :
    createPoolTokenMetadata connEmpty 42 7 name33 [] [] =
      .error "Invalid stake pool account" ∧
    createPoolTokenMetadata connEmpty 42 7 name33 [] [] ≠
      .error "maximum token name length is 32 characters" ∧
    name33.length = 33 := by
  refine ⟨by decide, by decide, by decide⟩

/-- Claim C5 (amended): the metadata layout rejects a name over 32
bytes, a symbol over 10 bytes and a uri over 200 bytes, and accepts
in-range lengths; createPoolTokenMetadata with an over-long name fails
with the name validation error before anything is encoded, but only
after the stake-pool account has been fetched from the ledger. -/
theorem claim_C5_metadata_validation :
    (∀ instruction nameLength symbolLength uriLength,
      32 < nameLength →
      tokenMetadataLayout instruction nameLength symbolLength uriLength =
        .error "maximum token name length is 32 characters") ∧
    (∀ instruction nameLength symbolLength uriLength,
      nameLength ≤ 32 → 10 < symbolLength →
      tokenMetadataLayout instruction nameLength symbolLength uriLength =
        .error "maximum token symbol length is 10 characters") ∧
    (∀ instruction nameLength symbolLength uriLength,
      nameLength ≤ 32 → symbolLength ≤ 10 → 200 < uriLength →
      tokenMetadataLayout instruction nameLength symbolLength uriLength =
        .error "maximum token uri length is 200 characters") ∧
    (∀ instruction nameLength symbolLength uriLength,
      nameLength ≤ 32 → symbolLength ≤ 10 → uriLength ≤ 200 →
      tokenMetadataLayout instruction nameLength symbolLength uriLength =
        .ok { index := instruction, nameLength, symbolLength, uriLength }) ∧
    (∀ (connection : Connection) (stakePoolAddress payer : Pubkey)
        (name symbol uri : List Nat),
      (∃ sp, getStakePoolAccount connection stakePoolAddress = .ok sp) →
      32 < name.length →
      createPoolTokenMetadata connection stakePoolAddress payer name symbol uri =
        .error "maximum token name length is 32 characters") := by
  have herr : ∀ instruction nameLength symbolLength uriLength, 32 < nameLength →
      tokenMetadataLayout instruction nameLength symbolLength uriLength =
        .error "maximum token name length is 32 characters" := by
    intro instruction nameLength symbolLength uriLength h
    unfold tokenMetadataLayout
    rw [if_pos]
    exact h
  refine ⟨herr, ?_, ?_, ?_, ?_⟩
  · intro instruction nameLength symbolLength uriLength h1 h2
    unfold tokenMetadataLayout
    rw [if_neg (by simpa [METADATA_MAX_NAME_LENGTH] using h1),
      if_pos (show METADATA_MAX_SYMBOL_LENGTH < symbolLength from h2)]
  · intro instruction nameLength symbolLength uriLength h1 h2 h3
    unfold tokenMetadataLayout
    rw [if_neg (by simpa [METADATA_MAX_NAME_LENGTH] using h1),
      if_neg (by simpa [METADATA_MAX_SYMBOL_LENGTH] using h2),
      if_pos (show METADATA_MAX_URI_LENGTH < uriLength from h3)]
  · intro instruction nameLength symbolLength uriLength h1 h2 h3
    unfold tokenMetadataLayout
    rw [if_neg (by simpa [METADATA_MAX_NAME_LENGTH] using h1),
      if_neg (by simpa [METADATA_MAX_SYMBOL_LENGTH] using h2),
      if_neg (by simpa [METADATA_MAX_URI_LENGTH] using h3)]
  · intro connection stakePoolAddress payer name symbol uri hsp hname
    obtain ⟨sp, hsp⟩ := hsp
    have hbuild : ∀ p : CreateTokenMetadataParams, 32 < p.name.length →
        StakePoolInstruction.createTokenMetadata p =
          .error "maximum token name length is 32 characters" := by
      intro p hp
      unfold StakePoolInstruction.createTokenMetadata
      rw [herr 18 p.name.length p.symbol.length p.uri.length hp, exceptBind_error]
    simp only [createPoolTokenMetadata]
    rw [hsp, exceptBind_ok, hbuild _ hname, exceptBind_error]

/-- Witness for the amended C5: on the fixture ledger (where the pool
fetch succeeds) a 33-byte name produces exactly the name validation
error. -/
theorem claim_C5_witness :
    createPoolTokenMetadata conn7 42 7 name33 [] [] =
      .error "maximum token name length is 32 characters" :=
  claim_C5_metadata_validation.2.2.2.2 conn7 42 7 name33 [] []
    ⟨spAcct7, by decide⟩ (by decide)

/-- A scan entry with a nonempty buffer never throws: it reduces to the
pure per-entry function. -/
theorem scanAccount_nonempty (pa : Pubkey × AccountInfo) (h : pa.2.data ≠ []) :
    scanAccount pa = pure (scanEntry pa) := by
  obtain ⟨pk, acc⟩ := pa
  cases hdata : acc.data with
  | nil => exact absurd hdata h
  | cons b rest =>
    unfold scanAccount scanEntry bufferReadUInt8
    rw [hdata]
    rfl

/-- Mapping the scan over accounts with nonempty buffers succeeds with
one pure entry per account. -/
theorem mapM_scanAccount (l : List (Pubkey × AccountInfo))
    (h : ∀ pa ∈ l, pa.2.data ≠ []) :
    l.mapM scanAccount = .ok (l.map scanEntry) := by
  induction l with
  | nil => rfl
  | cons x xs ih =>
    rw [List.mapM_cons, scanAccount_nonempty x (h x (List.mem_cons_self x xs))]
    rw [ih fun pa hpa => h pa (List.mem_cons_of_mem x hpa)]
    rfl

/-- Counterexample for C7: a program-account list holding one account
with an empty data buffer makes the whole bulk scan fail (the tag read
throws outside every try block), so the scan does not return one result
per account for every input list. -/
theorem claim_C7_counterexample :
    getStakePoolAccounts connEmptyData 5 =
      .error "RangeError: attempt to access memory outside buffer bounds" ∧
    (connEmptyData.getProgramAccounts 5).length = 1 := by
  refine ⟨by decide, by decide⟩

/-- Claim C7 (amended): whenever every scanned account has a nonempty
data buffer the scan returns exactly one entry per account, decoding tag
1 as StakePool, tag 2 as ValidatorList and flagging any other tag (or a
failed decode) as a per-entry failure; the claimed 3-account scenario
with tag 5 in the middle behaves exactly so; an account with an empty
buffer instead aborts the whole batch. -/
theorem claim_C7_scan_per_entry :
    (∀ (connection : Connection) (stakePoolProgramAddress : Pubkey),
      (∀ pa ∈ connection.getProgramAccounts stakePoolProgramAddress, pa.2.data ≠ []) →
      getStakePoolAccounts connection stakePoolProgramAddress =
        .ok ((connection.getProgramAccounts stakePoolProgramAddress).map scanEntry)) ∧
    (∀ pa : Pubkey × AccountInfo,
      (scanEntry pa).pubkey = pa.1 ∧
      (scanEntry pa).data =
        (if pa.2.data.headD 0 = 1 then (StakePoolLayout.decode pa.2.data).map .inl
         else if pa.2.data.headD 0 = 2 then (ValidatorListLayout.decode pa.2.data).map .inr
         else none)) ∧
    getStakePoolAccounts conn7 5 =
      .ok
        [{ pubkey := 10, data := some (.inl zeroPool), executable := false,
           lamports := 0, owner := STAKE_POOL_PROGRAM_ID },
         { pubkey := 11, data := none, executable := false, lamports := 0,
           owner := STAKE_POOL_PROGRAM_ID },
         { pubkey := 12, data := some (.inl zeroPool), executable := false,
           lamports := 0, owner := STAKE_POOL_PROGRAM_ID }] := by
  refine ⟨?_, ?_, by decide⟩
  · intro connection stakePoolProgramAddress h
    unfold getStakePoolAccounts
    exact mapM_scanAccount _ h
  · intro pa
    exact ⟨rfl, rfl⟩

/-- Witness for the amended C7: the fixture scan has nonempty buffers
throughout, so the general per-entry form applies to it. -/
theorem claim_C7_witness :
    getStakePoolAccounts conn7 5 = .ok ((conn7.getProgramAccounts 5).map scanEntry) :=
  claim_C7_scan_per_entry.1 conn7 5 (by decide)

/-- Claim C10: the public withdraw operations take their amount in SOL
and convert it to pool tokens by multiplying by LAMPORTS_PER_SOL
(1000000000) through solToLamports; solToLamports maps NaN to 0, so
withdrawStake called with a NaN amount succeeds with a zero-token
withdrawal (an approve for 0 tokens and no withdrawal instructions)
instead of rejecting the input, and withdrawSol carries the converted
pool-token amount into its withdraw instruction. -/
theorem claim_C10_sol_units_and_nan :
    (∀ q : ℚ, solToLamports (some q) = q * (LAMPORTS_PER_SOL : ℚ)) ∧
    LAMPORTS_PER_SOL = 1000000000 ∧
    solToLamports none = 0 ∧
    withdrawStake conn7 freshKeys0 42 43 none =
      .ok { instructions :=
              [HighLevelIx.approve (getAssociatedTokenAddressSync zeroPool.poolMint 43)
                (freshKeys0 0) 43 0],
            signers := [freshKeys0 0], stakeReceiver := none,
            totalRentFreeBalances := 0 } ∧
    withdrawSol conn7 freshKeys0 42 43 99 (some ((3 : ℚ) / 1000000000)) =
      .ok { instructions :=
              [HighLevelIx.approve (getAssociatedTokenAddressSync zeroPool.poolMint 43)
                 (freshKeys0 0) 43 3,
               HighLevelIx.withdrawSolIx 42
                 (findWithdrawAuthorityProgramAddress STAKE_POOL_PROGRAM_ID 42)
                 zeroPool.reserveStake
                 (getAssociatedTokenAddressSync zeroPool.poolMint 43) (freshKeys0 0)
                 99 zeroPool.managerFeeAccount zeroPool.poolMint none 3],
            signers := [freshKeys0 0] } := by
  have hctx : prepareContext conn7 zeroPool 42 none = .ok ctx7 := by decide
  have hsp : getStakePoolAccount conn7 42 = .ok spAcct7 := by decide
  have hdata : spAcct7.data = zeroPool := rfl
  have hC : ∀ p, conn7.getTokenAccountAmount p = some 1000 := fun _ => rfl
  have hR : conn7.getMinimumBalanceForRentExemption stakeProgramSpace = 0 := rfl
  refine ⟨fun q => rfl, rfl, rfl, ?_, ?_⟩
  · have hprep0 : prepareWithdrawAccounts conn7 zeroPool 42 0 none false = .ok [] := by
      unfold prepareWithdrawAccounts
      rw [hctx, exceptBind_ok]
      rw [foldl_selectStep_zero zeroPool ctx7.minBalance false
        (tieredCandidates ctx7.accounts) ⟨[], 0⟩ rfl]
      rw [if_neg (by norm_num)]
      rfl
    have hparts : withdrawStakePlanParts conn7 42 43 none =
        .ok { stakePool := spAcct7, poolAmount := 0,
              poolTokenAccount := getAssociatedTokenAddressSync zeroPool.poolMint 43,
              stakeAccountRentExemption := 0, stakeReceiverAccount := none,
              withdrawAccounts := [] } := by
      unfold withdrawStakePlanParts
      rw [hsp, exceptBind_ok]
      simp only [show solToLamports none = 0 from rfl, hdata, Option.getD, hC, hR,
        exceptBind_ok, exceptBind_error, exceptPure]
      rw [if_neg (by norm_num : ¬ ((1000 : Nat) : ℚ) < 0)]
      rw [if_neg (by simp : ¬ false = true), if_neg (by simp : ¬ false = true)]
      rw [show decide (getAssociatedTokenAddressSync zeroPool.poolMint 43 =
        zeroPool.managerFeeAccount) = false from by decide]
      rw [hprep0, exceptBind_ok]
    unfold withdrawStake
    rw [hparts, exceptMap_ok]
    rfl
  · have hsol3 : solToLamports (some ((3 : ℚ) / 1000000000)) = 3 := by
      with_unfolding_all decide
    unfold withdrawSol
    rw [hsp, exceptBind_ok]
    simp only [hsol3, hdata, hC, exceptBind_ok, exceptBind_error, exceptPure]
    rw [if_neg (by norm_num : ¬ ((1000 : Nat) : ℚ) < 3)]

end StakePoolClient
